import Mathlib

/-
  Verification of the IDAS time-stepping engine (src/idas/source/idas.c)
  against its natural-language specification.

  The shallow embedding models realtype as the exact rationals, the
  N_Vector layer as lists of rationals with pointwise operations, and the
  IDAMem block as a Lean structure.  External collaborators that are not
  part of the source (libm pow and sqrt, the weighted-RMS norms of the
  vector layer, the linear solver and the user residual) are passed in as
  function parameters, mirroring the callback architecture of the code.
-/

namespace IdasSpec

/-! ## The vector layer (N_Vector operations used by the stepper) -/

abbrev Vec := List ℚ

def vscale (c : ℚ) (v : Vec) : Vec := v.map (fun x => c * x)

def vlinsum (a : ℚ) (x : Vec) (b : ℚ) (y : Vec) : Vec :=
  List.zipWith (fun xi yi => a * xi + b * yi) x y

def vabs (v : Vec) : Vec := v.map (fun x => abs x)

def vaddconst (v : Vec) (b : ℚ) : Vec := v.map (fun x => x + b)

def vinv (v : Vec) : Vec := v.map (fun x => 1 / x)

def vmin : Vec → ℚ
  | [] => 0
  | x :: xs => xs.foldl min x

def vzero (v : Vec) : Vec := v.map (fun _ => (0 : ℚ))

/-- Pointwise array update, modelling an assignment `a[i] = x` on a C array
viewed as a function from indices to values. -/
def upd {α : Type} (f : ℕ → α) (i : ℕ) (x : α) : ℕ → α :=
  fun j => if j = i then x else f j

theorem upd_same {α : Type} (f : ℕ → α) (i : ℕ) (x : α) : upd f i x i = x := by
  simp [upd]

theorem upd_other {α : Type} (f : ℕ → α) (i j : ℕ) (x : α) (h : j ≠ i) :
    upd f i x j = f j := by
  simp [upd, h]

/-! ## The solver memory block (the fields of IDAMem used by the claims) -/

structure IDAState where
  tn : ℚ
  hh : ℚ
  hused : ℚ
  rr : ℚ
  cj : ℚ
  cjlast : ℚ
  ss : ℚ
  epsNewt : ℚ
  toldel : ℚ
  hmax_inv : ℚ
  uround : ℚ
  reltol : ℚ
  atolScalar : ℚ
  atolVec : Vec
  rhomax : ℚ
  tretp : ℚ
  tstop : ℚ
  kk : ℕ
  kused : ℕ
  knew : ℕ
  ns : ℕ
  maxord : ℕ
  phase : ℕ
  nst : ℕ
  ncfn : ℕ
  netf : ℕ
  nre : ℕ
  nreS : ℕ
  maxncf : ℕ
  maxnef : ℕ
  maxcor : ℕ
  NsS : ℕ
  quad : Bool
  sensi : Bool
  errconQ : Bool
  errconS : Bool
  suppressalg : Bool
  psi : ℕ → ℚ
  alpha : ℕ → ℚ
  beta : ℕ → ℚ
  sigma : ℕ → ℚ
  gamma : ℕ → ℚ
  phi : ℕ → Vec
  phiQ : ℕ → Vec
  phiS : ℕ → ℕ → Vec
  ee : Vec
  eeQ : Vec
  eeS : ℕ → Vec
  ewt : Vec
  ewtQ : Vec
  ewtS : ℕ → Vec
  tempv1 : Vec
  p : ℕ → ℚ
  pbar : ℕ → ℚ
  plist : Option (ℕ → ℤ)

/-- A default memory block, used to build concrete instances. -/
def base : IDAState where
  tn := 0
  hh := 0
  hused := 0
  rr := 0
  cj := 0
  cjlast := 0
  ss := 0
  epsNewt := 0
  toldel := 0
  hmax_inv := 0
  uround := 0
  reltol := 0
  atolScalar := 0
  atolVec := []
  rhomax := 0
  tretp := 0
  tstop := 0
  kk := 0
  kused := 0
  knew := 0
  ns := 0
  maxord := 5
  phase := 0
  nst := 0
  ncfn := 0
  netf := 0
  nre := 0
  nreS := 0
  maxncf := 10
  maxnef := 10
  maxcor := 4
  NsS := 0
  quad := false
  sensi := false
  errconQ := false
  errconS := false
  suppressalg := false
  psi := fun _ => 0
  alpha := fun _ => 0
  beta := fun _ => 0
  sigma := fun _ => 0
  gamma := fun _ => 0
  phi := fun _ => []
  phiQ := fun _ => []
  phiS := fun _ _ => []
  ee := []
  eeQ := []
  eeS := fun _ => []
  ewt := []
  ewtQ := []
  ewtS := fun _ => []
  tempv1 := []
  p := fun _ => 0
  pbar := fun _ => 0
  plist := none

/-! ## IDASetCoeffs (idas.c:3290-3351)

The coefficient arrays are bundled so that the loop body of IDASetCoeffs
can be written as a recursive function mirroring the C loop
`for(i=1;i<=kk;i++){...}` with its two carried temporaries. -/

structure CoeffArrs where
  psi : ℕ → ℚ
  alpha : ℕ → ℚ
  beta : ℕ → ℚ
  sigma : ℕ → ℚ
  gamma : ℕ → ℚ

/-- One pass of the loop body of IDASetCoeffs, iterated `n` times starting
at index `i` with carried temporary `temp1`; returns the updated arrays
and the final value of `temp1`. -/
def setCoeffsIter (hh : ℚ) : ℕ → ℕ → ℚ → CoeffArrs → CoeffArrs × ℚ
  | 0, _, temp1, a => (a, temp1)
  | n + 1, i, temp1, a =>
    let temp2 := a.psi (i - 1)
    let psi1 := upd a.psi (i - 1) temp1
    let beta1 := upd a.beta i (a.beta (i - 1) * psi1 (i - 1) / temp2)
    let temp1x := temp2 + hh
    let alpha1 := upd a.alpha i (hh / temp1x)
    let sigma1 := upd a.sigma i ((i : ℚ) * a.sigma (i - 1) * alpha1 i)
    let gamma1 := upd a.gamma i (a.gamma (i - 1) + a.alpha (i - 1) / hh)
    setCoeffsIter hh n (i + 1) temp1x ⟨psi1, alpha1, beta1, sigma1, gamma1⟩

/-- The updated value of the counter `ns` computed at the top of
IDASetCoeffs: reset when h or k changed, then incremented and capped at
`kused + 2`. -/
def nsUpd (s : IDAState) : ℕ :=
  min ((if s.hh ≠ s.hused ∨ s.kk ≠ s.kused then 0 else s.ns) + 1) (s.kused + 2)

/-- The coefficient arrays right after the pre-loop assignments
`beta[0]=ONE; alpha[0]=ONE; gamma[0]=ZERO; sigma[0]=ONE;`. -/
def coeffInit (s : IDAState) : CoeffArrs :=
  ⟨s.psi, upd s.alpha 0 1, upd s.beta 0 1, upd s.sigma 0 1, upd s.gamma 0 0⟩

/-- The `if(kk+1 >= ns){...}` recompute block of IDASetCoeffs, including
the trailing `psi[kk] = temp1`. -/
def setCoeffsArrays (s : IDAState) : IDAState :=
  if s.kk + 1 ≥ nsUpd s then
    let r := setCoeffsIter s.hh s.kk 1 s.hh (coeffInit s)
    { s with psi := upd r.1.psi s.kk r.2, alpha := r.1.alpha, beta := r.1.beta,
             sigma := r.1.sigma, gamma := r.1.gamma }
  else s

/-- IDASetCoeffs: computes the step coefficients, applies the phi-star
scaling `phi[j] = beta[j]*phi[j]` for `j = ns..kk` (also on the quadrature
and sensitivity mirrors), and advances `tn` by `hh`.  Returns the new
state together with the error coefficient `ck`. -/
def IDASetCoeffs (s : IDAState) : IDAState × ℚ :=
  let ns1 := nsUpd s
  let s1 : IDAState := setCoeffsArrays s
  let alphas : ℚ := -(Finset.sum (Finset.range s.kk) (fun i => (1 : ℚ) / ((i : ℚ) + 1)))
  let alpha0 : ℚ := -(Finset.sum (Finset.range s.kk) (fun i => s1.alpha i))
  let ck0 := abs (s1.alpha s.kk + alphas - alpha0)
  let ck := max ck0 (s1.alpha s.kk)
  let phi1 := fun j => if ns1 ≤ j ∧ j ≤ s.kk then vscale (s1.beta j) (s.phi j) else s.phi j
  let phiQ1 := if s.quad then
      (fun j => if ns1 ≤ j ∧ j ≤ s.kk then vscale (s1.beta j) (s.phiQ j) else s.phiQ j)
    else s.phiQ
  let phiS1 := if s.sensi then
      (fun j is => if is < s.NsS ∧ ns1 ≤ j ∧ j ≤ s.kk
        then vscale (s1.beta j) (s.phiS j is) else s.phiS j is)
    else s.phiS
  ({ s1 with ns := ns1, cjlast := s.cj, cj := -alphas / s.hh,
             phi := phi1, phiQ := phiQ1, phiS := phiS1, tn := s.tn + s.hh }, ck)

/-! ## IDARestore (idas.c:4258-4279) -/

/-- The loop `for (j = 1; j <= kk; j++) psi[j-1] = psi[j] - hh;` of
IDARestore, iterated `n` times starting at index `i`. -/
def restorePsiLoop (hh : ℚ) : ℕ → ℕ → (ℕ → ℚ) → (ℕ → ℚ)
  | 0, _, psi => psi
  | n + 1, i, psi => restorePsiLoop hh n (i + 1) (upd psi (i - 1) (psi i - hh))

/-- IDARestore: resets `tn` to the saved time, shifts `psi` back, and
divides the phi-star scaling out of `phi` (and of the quadrature and
sensitivity mirrors) for `j = ns..kk`. -/
def IDARestore (s : IDAState) (saved_t : ℚ) : IDAState :=
  { s with
    tn := saved_t
    psi := restorePsiLoop s.hh s.kk 1 s.psi
    phi := fun j => if s.ns ≤ j ∧ j ≤ s.kk then vscale (1 / s.beta j) (s.phi j) else s.phi j
    phiQ := if s.quad then
        (fun j => if s.ns ≤ j ∧ j ≤ s.kk then vscale (1 / s.beta j) (s.phiQ j) else s.phiQ j)
      else s.phiQ
    phiS := if s.sensi then
        (fun j is => if is < s.NsS ∧ s.ns ≤ j ∧ j ≤ s.kk
          then vscale (1 / s.beta j) (s.phiS j is) else s.phiS j is)
      else s.phiS }

/-! ## Characterization of the IDASetCoeffs loop -/

/-- The value the loop writes into `psi[j]`: `hh` at index 0 and
`psi_old[j-1] + hh` above, i.e. the previous sum of step sizes extended by
the current step. -/
def psiNewAt (hh : ℚ) (psi0 : ℕ → ℚ) : ℕ → ℚ
  | 0 => hh
  | j + 1 => psi0 j + hh

theorem setCoeffsIter_spec (hh : ℚ) (psi0 : ℕ → ℚ) :
    ∀ (n m : ℕ) (a : CoeffArrs) (r : CoeffArrs × ℚ),
      (∀ j, m ≤ j → a.psi j = psi0 j) →
      r = setCoeffsIter hh n (m + 1) (psiNewAt hh psi0 m) a →
      (r.2 = psiNewAt hh psi0 (m + n)) ∧
      (∀ j, r.1.psi j = if m ≤ j ∧ j < m + n then psiNewAt hh psi0 j else a.psi j) ∧
      (∀ j, r.1.alpha j =
        if m + 1 ≤ j ∧ j < m + 1 + n then hh / psiNewAt hh psi0 j else a.alpha j) ∧
      (∀ j, ¬(m + 1 ≤ j ∧ j < m + 1 + n) → r.1.beta j = a.beta j) ∧
      (∀ j, m + 1 ≤ j → j < m + 1 + n →
        r.1.beta j = r.1.beta (j - 1) * psiNewAt hh psi0 (j - 1) / psi0 (j - 1)) ∧
      (∀ j, ¬(m + 1 ≤ j ∧ j < m + 1 + n) → r.1.sigma j = a.sigma j) ∧
      (∀ j, m + 1 ≤ j → j < m + 1 + n →
        r.1.sigma j = (j : ℚ) * r.1.sigma (j - 1) * r.1.alpha j) ∧
      (∀ j, ¬(m + 1 ≤ j ∧ j < m + 1 + n) → r.1.gamma j = a.gamma j) ∧
      (∀ j, m + 1 ≤ j → j < m + 1 + n →
        r.1.gamma j = r.1.gamma (j - 1) + r.1.alpha (j - 1) / hh) := by
  intro n
  induction n with
  | zero =>
    intro m a r hpsi hr
    subst hr
    simp only [setCoeffsIter]
    refine ⟨rfl, ?_, ?_, ?_, ?_, ?_, ?_, ?_, ?_⟩ <;>
      intro j <;> first
        | (intro h1 h2; omega)
        | (split <;> first | omega | rfl)
        | (intro h; trivial)
  | succ n ih =>
    intro m a r hpsi hr
    have htemp2 : a.psi m = psi0 m := hpsi m le_rfl
    simp only [setCoeffsIter, Nat.add_sub_cancel, upd_same] at hr
    rw [htemp2] at hr
    have hstep : r = setCoeffsIter hh n (m + 1 + 1) (psiNewAt hh psi0 (m + 1))
        ⟨upd a.psi m (psiNewAt hh psi0 m),
         upd a.alpha (m + 1) (hh / psiNewAt hh psi0 (m + 1)),
         upd a.beta (m + 1) (a.beta m * psiNewAt hh psi0 m / psi0 m),
         upd a.sigma (m + 1) (((m + 1 : ℕ) : ℚ) * a.sigma m * (hh / psiNewAt hh psi0 (m + 1))),
         upd a.gamma (m + 1) (a.gamma m + a.alpha m / hh)⟩ := hr
    have hpsi1 : ∀ j, m + 1 ≤ j →
        (CoeffArrs.mk (upd a.psi m (psiNewAt hh psi0 m))
          (upd a.alpha (m + 1) (hh / psiNewAt hh psi0 (m + 1)))
          (upd a.beta (m + 1) (a.beta m * psiNewAt hh psi0 m / psi0 m))
          (upd a.sigma (m + 1) (((m + 1 : ℕ) : ℚ) * a.sigma m * (hh / psiNewAt hh psi0 (m + 1))))
          (upd a.gamma (m + 1) (a.gamma m + a.alpha m / hh))).psi j = psi0 j := by
      intro j hj
      show upd a.psi m (psiNewAt hh psi0 m) j = psi0 j
      rw [upd_other _ _ _ _ (by omega)]
      exact hpsi j (by omega)
    obtain ⟨h2, hps, hal, hbf, hbr, hsf, hsr, hgf, hgr⟩ := ih (m + 1) _ r hpsi1 hstep
    simp only at hps hal hbf hsf hgf
    refine ⟨?_, ?_, ?_, ?_, ?_, ?_, ?_, ?_, ?_⟩
    · rw [h2]; congr 1; omega
    · intro j
      rw [hps j]
      by_cases hj1 : m + 1 ≤ j ∧ j < m + 1 + n
      · rw [if_pos hj1, if_pos (by omega)]
      · rw [if_neg hj1]
        by_cases hj2 : j = m
        · subst hj2
          rw [upd_same, if_pos (by omega)]
        · rw [upd_other _ _ _ _ hj2, if_neg (by omega)]
    · intro j
      rw [hal j]
      by_cases hj1 : m + 1 + 1 ≤ j ∧ j < m + 1 + 1 + n
      · rw [if_pos hj1, if_pos (by omega)]
      · rw [if_neg hj1]
        by_cases hj2 : j = m + 1
        · subst hj2
          rw [upd_same, if_pos (by omega)]
        · rw [upd_other _ _ _ _ hj2, if_neg (by omega)]
    · intro j hj
      rw [hbf j (by omega), upd_other _ _ _ _ (by omega)]
    · intro j hj1 hj2
      by_cases hj3 : m + 1 + 1 ≤ j
      · exact hbr j hj3 (by omega)
      · have hj4 : j = m + 1 := by omega
        subst hj4
        rw [hbf (m + 1) (by omega), upd_same, Nat.add_sub_cancel,
            hbf m (by omega), upd_other _ _ _ _ (by omega)]
    · intro j hj
      rw [hsf j (by omega), upd_other _ _ _ _ (by omega)]
    · intro j hj1 hj2
      by_cases hj3 : m + 1 + 1 ≤ j
      · exact hsr j hj3 (by omega)
      · have hj4 : j = m + 1 := by omega
        subst hj4
        rw [hsf (m + 1) (by omega), upd_same, Nat.add_sub_cancel,
            hsf m (by omega), upd_other _ _ _ _ (by omega),
            hal (m + 1), if_neg (by omega), upd_same]
    · intro j hj
      rw [hgf j (by omega), upd_other _ _ _ _ (by omega)]
    · intro j hj1 hj2
      by_cases hj3 : m + 1 + 1 ≤ j
      · exact hgr j hj3 (by omega)
      · have hj4 : j = m + 1 := by omega
        subst hj4
        rw [hgf (m + 1) (by omega), upd_same, Nat.add_sub_cancel,
            hgf m (by omega), upd_other _ _ _ _ (by omega),
            hal m, if_neg (by omega), upd_other _ _ _ _ (by omega)]

/-! ## Field-level characterization of IDASetCoeffs -/

theorem setCoeffs_tn (s : IDAState) : (IDASetCoeffs s).1.tn = s.tn + s.hh := rfl

theorem setCoeffs_ns (s : IDAState) : (IDASetCoeffs s).1.ns = nsUpd s := rfl

theorem setCoeffs_hh (s : IDAState) : (IDASetCoeffs s).1.hh = s.hh := by
  show (setCoeffsArrays s).hh = s.hh
  simp only [setCoeffsArrays]
  split <;> rfl

theorem setCoeffs_kk (s : IDAState) : (IDASetCoeffs s).1.kk = s.kk := by
  show (setCoeffsArrays s).kk = s.kk
  simp only [setCoeffsArrays]
  split <;> rfl

theorem setCoeffs_quad (s : IDAState) : (IDASetCoeffs s).1.quad = s.quad := by
  show (setCoeffsArrays s).quad = s.quad
  simp only [setCoeffsArrays]
  split <;> rfl

theorem setCoeffs_sensi (s : IDAState) : (IDASetCoeffs s).1.sensi = s.sensi := by
  show (setCoeffsArrays s).sensi = s.sensi
  simp only [setCoeffsArrays]
  split <;> rfl

theorem setCoeffs_NsS (s : IDAState) : (IDASetCoeffs s).1.NsS = s.NsS := by
  show (setCoeffsArrays s).NsS = s.NsS
  simp only [setCoeffsArrays]
  split <;> rfl

theorem setCoeffs_beta_val (s : IDAState) :
    (IDASetCoeffs s).1.beta = (setCoeffsArrays s).beta := rfl

theorem setCoeffs_phi (s : IDAState) (j : ℕ) :
    (IDASetCoeffs s).1.phi j =
      if nsUpd s ≤ j ∧ j ≤ s.kk then vscale ((IDASetCoeffs s).1.beta j) (s.phi j)
      else s.phi j := rfl

theorem setCoeffs_phiQ (s : IDAState) (j : ℕ) :
    (IDASetCoeffs s).1.phiQ j =
      if s.quad then
        (if nsUpd s ≤ j ∧ j ≤ s.kk then vscale ((IDASetCoeffs s).1.beta j) (s.phiQ j)
         else s.phiQ j)
      else s.phiQ j := by
  show (if s.quad then _ else s.phiQ) j = _
  split <;> rfl

theorem setCoeffs_phiS (s : IDAState) (j is : ℕ) :
    (IDASetCoeffs s).1.phiS j is =
      if s.sensi then
        (if is < s.NsS ∧ nsUpd s ≤ j ∧ j ≤ s.kk
         then vscale ((IDASetCoeffs s).1.beta j) (s.phiS j is)
         else s.phiS j is)
      else s.phiS j is := by
  show (if s.sensi then _ else s.phiS) j is = _
  split <;> rfl

theorem setCoeffsArrays_of_recompute (s : IDAState) (h : nsUpd s ≤ s.kk + 1) :
    setCoeffsArrays s =
      { s with
        psi := upd (setCoeffsIter s.hh s.kk 1 s.hh (coeffInit s)).1.psi s.kk
                   (setCoeffsIter s.hh s.kk 1 s.hh (coeffInit s)).2
        alpha := (setCoeffsIter s.hh s.kk 1 s.hh (coeffInit s)).1.alpha
        beta := (setCoeffsIter s.hh s.kk 1 s.hh (coeffInit s)).1.beta
        sigma := (setCoeffsIter s.hh s.kk 1 s.hh (coeffInit s)).1.sigma
        gamma := (setCoeffsIter s.hh s.kk 1 s.hh (coeffInit s)).1.gamma } := by
  simp only [setCoeffsArrays]
  rw [if_pos h]

theorem coeffInit_psi (s : IDAState) : (coeffInit s).psi = s.psi := rfl

theorem coeffInit_alpha (s : IDAState) : (coeffInit s).alpha = upd s.alpha 0 1 := rfl

theorem coeffInit_beta (s : IDAState) : (coeffInit s).beta = upd s.beta 0 1 := rfl

theorem coeffInit_sigma (s : IDAState) : (coeffInit s).sigma = upd s.sigma 0 1 := rfl

theorem coeffInit_gamma (s : IDAState) : (coeffInit s).gamma = upd s.gamma 0 0 := rfl

/-- The instantiation of the loop characterization at the actual call
site of IDASetCoeffs (start index 1, initial temporary hh). -/
theorem setCoeffsIter_call (s : IDAState) :
    ((setCoeffsIter s.hh s.kk 1 s.hh (coeffInit s)).2 = psiNewAt s.hh s.psi s.kk) ∧
    (∀ j, (setCoeffsIter s.hh s.kk 1 s.hh (coeffInit s)).1.psi j =
      if j < s.kk then psiNewAt s.hh s.psi j else s.psi j) ∧
    (∀ j, (setCoeffsIter s.hh s.kk 1 s.hh (coeffInit s)).1.alpha j =
      if 1 ≤ j ∧ j < 1 + s.kk then s.hh / psiNewAt s.hh s.psi j else upd s.alpha 0 1 j) ∧
    (∀ j, ¬(1 ≤ j ∧ j < 1 + s.kk) →
      (setCoeffsIter s.hh s.kk 1 s.hh (coeffInit s)).1.beta j = upd s.beta 0 1 j) ∧
    (∀ j, 1 ≤ j → j < 1 + s.kk →
      (setCoeffsIter s.hh s.kk 1 s.hh (coeffInit s)).1.beta j =
        (setCoeffsIter s.hh s.kk 1 s.hh (coeffInit s)).1.beta (j - 1) *
          psiNewAt s.hh s.psi (j - 1) / s.psi (j - 1)) ∧
    (∀ j, ¬(1 ≤ j ∧ j < 1 + s.kk) →
      (setCoeffsIter s.hh s.kk 1 s.hh (coeffInit s)).1.sigma j = upd s.sigma 0 1 j) ∧
    (∀ j, 1 ≤ j → j < 1 + s.kk →
      (setCoeffsIter s.hh s.kk 1 s.hh (coeffInit s)).1.sigma j =
        (j : ℚ) * (setCoeffsIter s.hh s.kk 1 s.hh (coeffInit s)).1.sigma (j - 1) *
          (setCoeffsIter s.hh s.kk 1 s.hh (coeffInit s)).1.alpha j) ∧
    (∀ j, ¬(1 ≤ j ∧ j < 1 + s.kk) →
      (setCoeffsIter s.hh s.kk 1 s.hh (coeffInit s)).1.gamma j = upd s.gamma 0 0 j) ∧
    (∀ j, 1 ≤ j → j < 1 + s.kk →
      (setCoeffsIter s.hh s.kk 1 s.hh (coeffInit s)).1.gamma j =
        (setCoeffsIter s.hh s.kk 1 s.hh (coeffInit s)).1.gamma (j - 1) +
          (setCoeffsIter s.hh s.kk 1 s.hh (coeffInit s)).1.alpha (j - 1) / s.hh) := by
  have hmain := setCoeffsIter_spec s.hh s.psi s.kk 0 (coeffInit s)
    (setCoeffsIter s.hh s.kk 1 s.hh (coeffInit s)) (fun j _ => rfl) rfl
  obtain ⟨h2, hps, hal, hbf, hbr, hsf, hsr, hgf, hgr⟩ := hmain
  simp only [zero_add, Nat.zero_add, coeffInit_psi, coeffInit_alpha, coeffInit_beta,
    coeffInit_sigma, coeffInit_gamma] at h2 hps hal hbf hbr hsf hsr hgf hgr
  refine ⟨h2, ?_, hal, hbf, hbr, hsf, hsr, hgf, hgr⟩
  intro j
  rw [hps j]
  by_cases hj : j < s.kk
  · rw [if_pos (by omega), if_pos hj]
  · rw [if_neg (by omega), if_neg hj]

theorem setCoeffs_psi_char (s : IDAState) (h : nsUpd s ≤ s.kk + 1) (j : ℕ) :
    (IDASetCoeffs s).1.psi j =
      if j ≤ s.kk then psiNewAt s.hh s.psi j else s.psi j := by
  show (setCoeffsArrays s).psi j = _
  rw [setCoeffsArrays_of_recompute s h]
  show upd _ s.kk _ j = _
  obtain ⟨h2, hps, -⟩ := setCoeffsIter_call s
  by_cases hj : j = s.kk
  · subst hj
    rw [upd_same, h2, if_pos le_rfl]
  · rw [upd_other _ _ _ _ hj, hps j]
    by_cases hj2 : j < s.kk
    · rw [if_pos hj2, if_pos (by omega)]
    · rw [if_neg hj2, if_neg (by omega)]

theorem setCoeffs_alpha_char (s : IDAState) (h : nsUpd s ≤ s.kk + 1) (j : ℕ)
    (h1 : 1 ≤ j) (h2 : j ≤ s.kk) :
    (IDASetCoeffs s).1.alpha j = s.hh / psiNewAt s.hh s.psi j := by
  show (setCoeffsArrays s).alpha j = _
  rw [setCoeffsArrays_of_recompute s h]
  show (setCoeffsIter s.hh s.kk 1 s.hh (coeffInit s)).1.alpha j = _
  obtain ⟨-, -, hal, -⟩ := setCoeffsIter_call s
  rw [hal j, if_pos (by omega)]

theorem setCoeffs_alpha_zero (s : IDAState) (h : nsUpd s ≤ s.kk + 1) :
    (IDASetCoeffs s).1.alpha 0 = 1 := by
  show (setCoeffsArrays s).alpha 0 = _
  rw [setCoeffsArrays_of_recompute s h]
  show (setCoeffsIter s.hh s.kk 1 s.hh (coeffInit s)).1.alpha 0 = _
  obtain ⟨-, -, hal, -⟩ := setCoeffsIter_call s
  rw [hal 0, if_neg (by omega), upd_same]

theorem setCoeffs_beta_zero (s : IDAState) (h : nsUpd s ≤ s.kk + 1) :
    (IDASetCoeffs s).1.beta 0 = 1 := by
  show (setCoeffsArrays s).beta 0 = _
  rw [setCoeffsArrays_of_recompute s h]
  show (setCoeffsIter s.hh s.kk 1 s.hh (coeffInit s)).1.beta 0 = _
  obtain ⟨-, -, -, hbf, -⟩ := setCoeffsIter_call s
  rw [hbf 0 (by omega), upd_same]

theorem setCoeffs_beta_rec (s : IDAState) (h : nsUpd s ≤ s.kk + 1) (j : ℕ)
    (h1 : 1 ≤ j) (h2 : j ≤ s.kk) :
    (IDASetCoeffs s).1.beta j =
      (IDASetCoeffs s).1.beta (j - 1) * psiNewAt s.hh s.psi (j - 1) / s.psi (j - 1) := by
  show (setCoeffsArrays s).beta j = (setCoeffsArrays s).beta (j - 1) * _ / _
  rw [setCoeffsArrays_of_recompute s h]
  show (setCoeffsIter s.hh s.kk 1 s.hh (coeffInit s)).1.beta j =
    (setCoeffsIter s.hh s.kk 1 s.hh (coeffInit s)).1.beta (j - 1) * _ / _
  obtain ⟨-, -, -, -, hbr, -⟩ := setCoeffsIter_call s
  exact hbr j h1 (by omega)

theorem setCoeffs_sigma_zero (s : IDAState) (h : nsUpd s ≤ s.kk + 1) :
    (IDASetCoeffs s).1.sigma 0 = 1 := by
  show (setCoeffsArrays s).sigma 0 = _
  rw [setCoeffsArrays_of_recompute s h]
  show (setCoeffsIter s.hh s.kk 1 s.hh (coeffInit s)).1.sigma 0 = _
  obtain ⟨-, -, -, -, -, hsf, -⟩ := setCoeffsIter_call s
  rw [hsf 0 (by omega), upd_same]

theorem setCoeffs_sigma_rec (s : IDAState) (h : nsUpd s ≤ s.kk + 1) (j : ℕ)
    (h1 : 1 ≤ j) (h2 : j ≤ s.kk) :
    (IDASetCoeffs s).1.sigma j =
      (j : ℚ) * (IDASetCoeffs s).1.sigma (j - 1) * (IDASetCoeffs s).1.alpha j := by
  show (setCoeffsArrays s).sigma j = (j : ℚ) * (setCoeffsArrays s).sigma (j - 1) *
    (setCoeffsArrays s).alpha j
  rw [setCoeffsArrays_of_recompute s h]
  show (setCoeffsIter s.hh s.kk 1 s.hh (coeffInit s)).1.sigma j =
    (j : ℚ) * (setCoeffsIter s.hh s.kk 1 s.hh (coeffInit s)).1.sigma (j - 1) *
      (setCoeffsIter s.hh s.kk 1 s.hh (coeffInit s)).1.alpha j
  obtain ⟨-, -, -, -, -, -, hsr, -⟩ := setCoeffsIter_call s
  exact hsr j h1 (by omega)

theorem setCoeffs_gamma_zero (s : IDAState) (h : nsUpd s ≤ s.kk + 1) :
    (IDASetCoeffs s).1.gamma 0 = 0 := by
  show (setCoeffsArrays s).gamma 0 = _
  rw [setCoeffsArrays_of_recompute s h]
  show (setCoeffsIter s.hh s.kk 1 s.hh (coeffInit s)).1.gamma 0 = _
  obtain ⟨-, -, -, -, -, -, -, hgf, -⟩ := setCoeffsIter_call s
  rw [hgf 0 (by omega), upd_same]

theorem setCoeffs_gamma_rec (s : IDAState) (h : nsUpd s ≤ s.kk + 1) (j : ℕ)
    (h1 : 1 ≤ j) (h2 : j ≤ s.kk) :
    (IDASetCoeffs s).1.gamma j =
      (IDASetCoeffs s).1.gamma (j - 1) + (IDASetCoeffs s).1.alpha (j - 1) / s.hh := by
  show (setCoeffsArrays s).gamma j = (setCoeffsArrays s).gamma (j - 1) +
    (setCoeffsArrays s).alpha (j - 1) / s.hh
  rw [setCoeffsArrays_of_recompute s h]
  show (setCoeffsIter s.hh s.kk 1 s.hh (coeffInit s)).1.gamma j =
    (setCoeffsIter s.hh s.kk 1 s.hh (coeffInit s)).1.gamma (j - 1) +
      (setCoeffsIter s.hh s.kk 1 s.hh (coeffInit s)).1.alpha (j - 1) / s.hh
  obtain ⟨-, -, -, -, -, -, -, -, hgr⟩ := setCoeffsIter_call s
  exact hgr j h1 (by omega)

/-! ## Characterization of the IDARestore psi loop -/

theorem restorePsiLoop_spec (hh : ℚ) :
    ∀ (n m : ℕ) (psi : ℕ → ℚ) (j : ℕ),
      restorePsiLoop hh n (m + 1) psi j =
        if m ≤ j ∧ j < m + n then psi (j + 1) - hh else psi j := by
  intro n
  induction n with
  | zero =>
    intro m psi j
    simp only [restorePsiLoop]
    rw [if_neg (by omega)]
  | succ n ih =>
    intro m psi j
    show restorePsiLoop hh n (m + 1 + 1) (upd psi (m + 1 - 1) (psi (m + 1) - hh)) j = _
    rw [ih (m + 1) _ j]
    by_cases h1 : m + 1 ≤ j ∧ j < m + 1 + n
    · rw [if_pos h1, if_pos (by omega), upd_other _ _ _ _ (by omega)]
    · rw [if_neg h1]
      by_cases h2 : j = m
      · subst h2
        rw [show j + 1 - 1 = j from rfl, upd_same, if_pos (by omega)]
      · rw [upd_other _ _ _ _ (by omega), if_neg (by omega)]

theorem vscale_inv_cancel (b : ℚ) (hb : b ≠ 0) (v : Vec) :
    vscale (1 / b) (vscale b v) = v := by
  simp only [vscale, List.map_map]
  have hfun : ((fun x => 1 / b * x) ∘ fun x => b * x) = id := by
    funext x
    simp only [Function.comp, id]
    field_simp
  rw [hfun, List.map_id]

/-- Claim C1 (amended): after a step attempt on which IDASetCoeffs has
applied the phi-star scaling, updated psi and advanced tn, IDARestore
with the saved pre-step time restores tn, the whole phi history (and the
phiQ/phiS mirrors), and every psi entry except psi[kk]; psi[kk] keeps the
value IDASetCoeffs wrote there.  Hypotheses: the recompute branch of
IDASetCoeffs was taken and the beta factors in the scaled range are
nonzero. -/
theorem C1_restore_inverts_setCoeffs (s : IDAState)
    (hrec : nsUpd s ≤ s.kk + 1)
    (hbeta : ∀ j, nsUpd s ≤ j → j ≤ s.kk → (IDASetCoeffs s).1.beta j ≠ 0) :
    (IDARestore (IDASetCoeffs s).1 s.tn).tn = s.tn ∧
    (∀ j, j ≠ s.kk → (IDARestore (IDASetCoeffs s).1 s.tn).psi j = s.psi j) ∧
    (∀ j, (IDARestore (IDASetCoeffs s).1 s.tn).phi j = s.phi j) ∧
    (∀ j, (IDARestore (IDASetCoeffs s).1 s.tn).phiQ j = s.phiQ j) ∧
    (∀ j is, (IDARestore (IDASetCoeffs s).1 s.tn).phiS j is = s.phiS j is) := by
  refine ⟨rfl, ?_, ?_, ?_, ?_⟩
  · intro j hj
    show restorePsiLoop (IDASetCoeffs s).1.hh (IDASetCoeffs s).1.kk 1 (IDASetCoeffs s).1.psi j
      = s.psi j
    rw [setCoeffs_hh, setCoeffs_kk]
    rw [show (1 : ℕ) = 0 + 1 from rfl, restorePsiLoop_spec]
    by_cases hlt : j < s.kk
    · rw [if_pos (by omega), setCoeffs_psi_char s hrec, if_pos (by omega)]
      show psiNewAt s.hh s.psi (j + 1) - s.hh = s.psi j
      show s.psi j + s.hh - s.hh = s.psi j
      ring
    · rw [if_neg (by omega), setCoeffs_psi_char s hrec, if_neg (by omega)]
  · intro j
    show (if (IDASetCoeffs s).1.ns ≤ j ∧ j ≤ (IDASetCoeffs s).1.kk
      then vscale (1 / (IDASetCoeffs s).1.beta j) ((IDASetCoeffs s).1.phi j)
      else (IDASetCoeffs s).1.phi j) = s.phi j
    rw [setCoeffs_ns, setCoeffs_kk]
    by_cases hj : nsUpd s ≤ j ∧ j ≤ s.kk
    · rw [if_pos hj, setCoeffs_phi, if_pos hj,
        vscale_inv_cancel _ (hbeta j hj.1 hj.2)]
    · rw [if_neg hj, setCoeffs_phi, if_neg hj]
  · intro j
    show (if (IDASetCoeffs s).1.quad then _ else (IDASetCoeffs s).1.phiQ) j = s.phiQ j
    have hq : (IDASetCoeffs s).1.quad = s.quad := setCoeffs_quad s
    rw [hq]
    by_cases hqq : s.quad
    · rw [if_pos hqq]
      show (if (IDASetCoeffs s).1.ns ≤ j ∧ j ≤ (IDASetCoeffs s).1.kk
        then vscale (1 / (IDASetCoeffs s).1.beta j) ((IDASetCoeffs s).1.phiQ j)
        else (IDASetCoeffs s).1.phiQ j) = s.phiQ j
      rw [setCoeffs_ns, setCoeffs_kk]
      by_cases hj : nsUpd s ≤ j ∧ j ≤ s.kk
      · rw [if_pos hj, setCoeffs_phiQ, hqq, if_pos rfl, if_pos hj,
          vscale_inv_cancel _ (hbeta j hj.1 hj.2)]
      · rw [if_neg hj, setCoeffs_phiQ, hqq, if_pos rfl, if_neg hj]
    · rw [if_neg hqq]
      show (IDASetCoeffs s).1.phiQ j = s.phiQ j
      rw [setCoeffs_phiQ]
      simp only [Bool.not_eq_true] at hqq
      rw [hqq]
      simp
  · intro j is
    show (if (IDASetCoeffs s).1.sensi then _ else (IDASetCoeffs s).1.phiS) j is = s.phiS j is
    have hq : (IDASetCoeffs s).1.sensi = s.sensi := setCoeffs_sensi s
    rw [hq]
    by_cases hqq : s.sensi
    · rw [if_pos hqq]
      show (if is < (IDASetCoeffs s).1.NsS ∧
            (IDASetCoeffs s).1.ns ≤ j ∧ j ≤ (IDASetCoeffs s).1.kk
        then vscale (1 / (IDASetCoeffs s).1.beta j) ((IDASetCoeffs s).1.phiS j is)
        else (IDASetCoeffs s).1.phiS j is) = s.phiS j is
      rw [setCoeffs_ns, setCoeffs_kk, setCoeffs_NsS]
      by_cases hj : is < s.NsS ∧ nsUpd s ≤ j ∧ j ≤ s.kk
      · rw [if_pos hj, setCoeffs_phiS, hqq, if_pos rfl, if_pos hj,
          vscale_inv_cancel _ (hbeta j hj.2.1 hj.2.2)]
      · rw [if_neg hj, setCoeffs_phiS, hqq, if_pos rfl, if_neg hj]
    · rw [if_neg hqq]
      show (IDASetCoeffs s).1.phiS j is = s.phiS j is
      rw [setCoeffs_phiS]
      simp only [Bool.not_eq_true] at hqq
      rw [hqq]
      simp

/-- A concrete state reaching the recompute branch with a changed step
size: kk = kused = 1, old h = 1, new h = 2, old psi = (1, 5, 5, ...). -/
def sEx1 : IDAState :=
  { base with kk := 1, kused := 1, hh := 2, hused := 1, ns := 1, tn := 10,
              psi := fun j => if j = 0 then 1 else 5,
              phi := fun _ => [1] }

theorem restorePsiLoop_one (hh : ℚ) (n : ℕ) (psi : ℕ → ℚ) (j : ℕ) :
    restorePsiLoop hh n 1 psi j = if j < n then psi (j + 1) - hh else psi j := by
  have h := restorePsiLoop_spec hh n 0 psi j
  simpa using h

theorem sEx1_beta_one : (IDASetCoeffs sEx1).1.beta 1 = 2 := by
  have hrec : nsUpd sEx1 ≤ sEx1.kk + 1 := by norm_num [nsUpd, sEx1, base]
  have hb := setCoeffs_beta_rec sEx1 hrec 1 le_rfl (by norm_num [sEx1, base])
  rw [hb, show (1 : ℕ) - 1 = 0 from rfl, setCoeffs_beta_zero sEx1 hrec]
  norm_num [psiNewAt, sEx1, base]

theorem C1_restore_witness :
    nsUpd sEx1 ≤ sEx1.kk + 1 ∧
    (IDARestore (IDASetCoeffs sEx1).1 sEx1.tn).tn = sEx1.tn ∧
    (IDARestore (IDASetCoeffs sEx1).1 sEx1.tn).psi 0 = sEx1.psi 0 ∧
    (IDARestore (IDASetCoeffs sEx1).1 sEx1.tn).phi 1 = sEx1.phi 1 := by
  have hrec : nsUpd sEx1 ≤ sEx1.kk + 1 := by norm_num [nsUpd, sEx1, base]
  have hbeta : ∀ j, nsUpd sEx1 ≤ j → j ≤ sEx1.kk →
      (IDASetCoeffs sEx1).1.beta j ≠ 0 := by
    intro j h1 h2
    have h3 : nsUpd sEx1 = 1 := by norm_num [nsUpd, sEx1, base]
    have h4 : sEx1.kk = 1 := rfl
    have hj : j = 1 := by omega
    subst hj
    rw [sEx1_beta_one]
    norm_num
  have h := C1_restore_inverts_setCoeffs sEx1 hrec hbeta
  exact ⟨hrec, h.1, h.2.1 0 (by norm_num [sEx1, base]), h.2.2.1 1⟩

/-- Claim C1 as stated is false: on the concrete state sEx1 the entry
psi[kk] is not restored to its pre-attempt value (it keeps the value
written by IDASetCoeffs). -/
theorem C1_psi_kk_counterexample :
    (IDARestore (IDASetCoeffs sEx1).1 sEx1.tn).psi 1 ≠ sEx1.psi 1 := by
  have hrec : nsUpd sEx1 ≤ sEx1.kk + 1 := by norm_num [nsUpd, sEx1, base]
  show restorePsiLoop (IDASetCoeffs sEx1).1.hh (IDASetCoeffs sEx1).1.kk 1
    (IDASetCoeffs sEx1).1.psi 1 ≠ sEx1.psi 1
  rw [setCoeffs_hh, setCoeffs_kk, restorePsiLoop_one,
      if_neg (by norm_num [sEx1, base]),
      setCoeffs_psi_char sEx1 hrec 1, if_pos (by norm_num [sEx1, base])]
  norm_num [psiNewAt, sEx1, base]

/-- Claim C4 (amended): on a step attempt taking the recompute branch
(q + 1 at least ns), IDASetCoeffs computes psi[i] as the sum of the last
i+1 step sizes (current h first), alpha[i] = h/psi[i],
beta[i] = beta[i-1] * psi_new[i-1] / psi_old[i-1] (updated value over the
value it replaced), sigma[i] = i * sigma[i-1] * alpha[i], and
gamma[i] = gamma[i-1] + alpha[i-1]/h, for i = 1..q. -/
theorem C4_setCoeffs_recurrences (s : IDAState) (steps : ℕ → ℚ)
    (hrec : nsUpd s ≤ s.kk + 1)
    (hsum : ∀ j, j < s.kk → s.psi j = Finset.sum (Finset.range (j + 1)) steps) :
    (∀ j, j ≤ s.kk → (IDASetCoeffs s).1.psi j =
        Finset.sum (Finset.range (j + 1))
          (fun t => if t = 0 then s.hh else steps (t - 1))) ∧
    (∀ j, 1 ≤ j → j ≤ s.kk →
        (IDASetCoeffs s).1.alpha j = s.hh / (IDASetCoeffs s).1.psi j) ∧
    (∀ j, 1 ≤ j → j ≤ s.kk →
        (IDASetCoeffs s).1.beta j =
          (IDASetCoeffs s).1.beta (j - 1) * (IDASetCoeffs s).1.psi (j - 1) /
            s.psi (j - 1)) ∧
    (∀ j, 1 ≤ j → j ≤ s.kk →
        (IDASetCoeffs s).1.sigma j =
          (j : ℚ) * (IDASetCoeffs s).1.sigma (j - 1) * (IDASetCoeffs s).1.alpha j) ∧
    (∀ j, 1 ≤ j → j ≤ s.kk →
        (IDASetCoeffs s).1.gamma j =
          (IDASetCoeffs s).1.gamma (j - 1) + (IDASetCoeffs s).1.alpha (j - 1) / s.hh) := by
  refine ⟨?_, ?_, ?_, ?_, ?_⟩
  · intro j hj
    rw [setCoeffs_psi_char s hrec j, if_pos hj]
    cases j with
    | zero => simp [psiNewAt]
    | succ i =>
      show s.psi i + s.hh = _
      rw [Finset.sum_range_succ' (fun t => if t = 0 then s.hh else steps (t - 1)) (i + 1)]
      simp only [Nat.succ_ne_zero, if_false, Nat.add_sub_cancel]
      rw [← hsum i (by omega)]
      simp
  · intro j h1 h2
    rw [setCoeffs_alpha_char s hrec j h1 h2, setCoeffs_psi_char s hrec j, if_pos h2]
  · intro j h1 h2
    rw [setCoeffs_beta_rec s hrec j h1 h2, setCoeffs_psi_char s hrec (j - 1),
        if_pos (by omega)]
  · intro j h1 h2
    exact setCoeffs_sigma_rec s hrec j h1 h2
  · intro j h1 h2
    exact setCoeffs_gamma_rec s hrec j h1 h2

/-- A step-size history matching the psi table of sEx4. -/
def stepsEx : ℕ → ℚ := fun t => if t = 0 then 2 else 1

/-- A concrete state at order 2 with constant step size 1 and old psi
table (2, 3, ...). -/
def sEx4 : IDAState :=
  { base with kk := 2, kused := 2, hh := 1, hused := 1, ns := 1,
              psi := fun j => if j = 0 then 2 else if j = 1 then 3 else 9 }

theorem C4_setCoeffs_witness :
    nsUpd sEx4 ≤ sEx4.kk + 1 ∧
    (IDASetCoeffs sEx4).1.psi 2 =
      Finset.sum (Finset.range 3) (fun t => if t = 0 then sEx4.hh else stepsEx (t - 1)) ∧
    (IDASetCoeffs sEx4).1.alpha 2 = sEx4.hh / (IDASetCoeffs sEx4).1.psi 2 := by
  have hrec : nsUpd sEx4 ≤ sEx4.kk + 1 := by norm_num [nsUpd, sEx4, base]
  have hsum : ∀ j, j < sEx4.kk → sEx4.psi j =
      Finset.sum (Finset.range (j + 1)) stepsEx := by
    intro j hj
    have hk : sEx4.kk = 2 := rfl
    rw [hk] at hj
    interval_cases j <;>
      norm_num [sEx4, base, stepsEx, Finset.sum_range_succ]
  have h := C4_setCoeffs_recurrences sEx4 stepsEx hrec hsum
  exact ⟨hrec, h.1 2 le_rfl, h.2.1 2 (by norm_num) le_rfl⟩

/-- Claim C4 as stated is false: reading the claimed ratio
`beta[i-1]*psi_prev/psi_new` as previous value over updated value
contradicts the code, which multiplies by the updated value over the
previous one. -/
theorem C4_beta_counterexample :
    (IDASetCoeffs sEx1).1.beta 1 ≠
      (IDASetCoeffs sEx1).1.beta 0 * sEx1.psi 0 / (IDASetCoeffs sEx1).1.psi 0 := by
  have hrec : nsUpd sEx1 ≤ sEx1.kk + 1 := by norm_num [nsUpd, sEx1, base]
  rw [sEx1_beta_one, setCoeffs_beta_zero sEx1 hrec,
      setCoeffs_psi_char sEx1 hrec 0, if_pos (Nat.zero_le _)]
  norm_num [psiNewAt, sEx1, base]

/-! ## IDAHandleNFlag (idas.c:4366-4456)

Return flags are modelled as a sum type; the fatal flags are the ones the
C code encodes as negative integers. -/

inductive NFlag where
  | success
  | resRecvr
  | lsetupRecvr
  | lsolveRecvr
  | nconvRecvr
  | constrRecvr
  | errorTestFail
  | resFail
  | lsetupFail
  | lsolveFail
  deriving DecidableEq

/-- Whether the C encoding of the flag is negative (nonrecoverable). -/
def NFlag.isNeg : NFlag → Bool
  | .resFail => true
  | .lsetupFail => true
  | .lsolveFail => true
  | _ => false

inductive KFlag where
  | predictAgain
  | constrFail
  | repResErr
  | errFail
  | convFail
  | fatal (f : NFlag)
  deriving DecidableEq

/-- IDAHandleNFlag: adjusts step size (and order) after a recoverable
failure, or passes a nonrecoverable flag through.  Returns the new state,
the updated within-step failure counters ncf and nef, and the kflag.
`rp` is the external libm pow used by `RPowerR`. -/
def IDAHandleNFlag (s : IDAState) (nflag : NFlag) (ncf nef : ℕ) (est : ℚ)
    (rp : ℚ → ℚ → ℚ) : IDAState × ℕ × ℕ × KFlag :=
  let s := { s with phase := 1 }
  if nflag ≠ NFlag.errorTestFail then
    let s := { s with ncfn := s.ncfn + 1 }
    if nflag.isNeg then (s, ncf, nef, KFlag.fatal nflag)
    else
      let ncf1 := ncf + 1
      let s := if nflag ≠ NFlag.constrRecvr then { s with rr := 1/4 } else s
      let s := { s with hh := s.hh * s.rr }
      if ncf1 < s.maxncf then (s, ncf1, nef, KFlag.predictAgain)
      else if nflag = NFlag.resRecvr then (s, ncf1, nef, KFlag.repResErr)
      else if nflag = NFlag.constrRecvr then (s, ncf1, nef, KFlag.constrFail)
      else (s, ncf1, nef, KFlag.convFail)
  else
    let nef1 := nef + 1
    let s := { s with netf := s.netf + 1 }
    if nef1 = 1 then
      let s := { s with kk := s.knew }
      let rr0 := (9/10 : ℚ) * rp (2 * est + 1/10000) (-(1 / ((s.kk : ℚ) + 1)))
      let rr1 := max (1/4) (min (9/10) rr0)
      ({ s with rr := rr1, hh := s.hh * rr1 }, ncf, nef1, KFlag.predictAgain)
    else if nef1 = 2 then
      let s := { s with kk := s.knew, rr := 1/4 }
      ({ s with hh := s.hh * (1/4) }, ncf, nef1, KFlag.predictAgain)
    else if nef1 < s.maxnef then
      let s := { s with kk := 1, rr := 1/4 }
      ({ s with hh := s.hh * (1/4) }, ncf, nef1, KFlag.predictAgain)
    else (s, ncf, nef1, KFlag.errFail)

/-- Claim C5: the error-test failure ladder.  With nef counting previous
failures in this step (so the current one is the (nef+1)-th): the 1st
failure keeps or lowers the order (kk = knew) and sets
rr = 0.9*(2 est + 1e-4)^(-1/(kk+1)) clamped to [1/4, 9/10]; the 2nd
applies the same order decision with rr = 1/4; from the 3rd while below
maxnef it forces kk = 1 with rr = 1/4; reaching maxnef returns errFail;
in every retry case hh is multiplied by rr. -/
theorem C5_error_ladder (s : IDAState) (ncf nef : ℕ) (est : ℚ) (rp : ℚ → ℚ → ℚ)
    (hmax : 3 ≤ s.maxnef) :
    (nef = 0 →
      (IDAHandleNFlag s NFlag.errorTestFail ncf nef est rp).1.kk = s.knew ∧
      (IDAHandleNFlag s NFlag.errorTestFail ncf nef est rp).1.rr =
        max (1/4) (min (9/10)
          ((9/10) * rp (2 * est + 1/10000) (-(1 / ((s.knew : ℚ) + 1))))) ∧
      (IDAHandleNFlag s NFlag.errorTestFail ncf nef est rp).1.hh =
        s.hh * (IDAHandleNFlag s NFlag.errorTestFail ncf nef est rp).1.rr ∧
      (IDAHandleNFlag s NFlag.errorTestFail ncf nef est rp).2.2.2 =
        KFlag.predictAgain) ∧
    (nef = 1 →
      (IDAHandleNFlag s NFlag.errorTestFail ncf nef est rp).1.kk = s.knew ∧
      (IDAHandleNFlag s NFlag.errorTestFail ncf nef est rp).1.rr = 1/4 ∧
      (IDAHandleNFlag s NFlag.errorTestFail ncf nef est rp).1.hh = s.hh * (1/4) ∧
      (IDAHandleNFlag s NFlag.errorTestFail ncf nef est rp).2.2.2 =
        KFlag.predictAgain) ∧
    (2 ≤ nef → nef + 1 < s.maxnef →
      (IDAHandleNFlag s NFlag.errorTestFail ncf nef est rp).1.kk = 1 ∧
      (IDAHandleNFlag s NFlag.errorTestFail ncf nef est rp).1.rr = 1/4 ∧
      (IDAHandleNFlag s NFlag.errorTestFail ncf nef est rp).1.hh = s.hh * (1/4) ∧
      (IDAHandleNFlag s NFlag.errorTestFail ncf nef est rp).2.2.2 =
        KFlag.predictAgain) ∧
    (s.maxnef ≤ nef + 1 →
      (IDAHandleNFlag s NFlag.errorTestFail ncf nef est rp).2.2.2 = KFlag.errFail) := by
  refine ⟨?_, ?_, ?_, ?_⟩
  · intro h
    subst h
    simp [IDAHandleNFlag]
  · intro h
    subst h
    simp [IDAHandleNFlag]
  · intro h1 h2
    have e1 : ¬(nef + 1 = 1) := by omega
    have e2 : ¬(nef + 1 = 2) := by omega
    simp [IDAHandleNFlag, e1, e2, h2]
  · intro h1
    have e1 : ¬(nef + 1 = 1) := by omega
    have e2 : ¬(nef + 1 = 2) := by omega
    have e3 : ¬(nef + 1 < s.maxnef) := by omega
    simp [IDAHandleNFlag, e1, e2, e3]

/-- A concrete state for exercising the error-test ladder. -/
def sEx5 : IDAState := { base with kk := 3, knew := 2, hh := 1 }

/-- A concrete stand-in for the external pow callback. -/
def rpHalf : ℚ → ℚ → ℚ := fun _ _ => 1/2

theorem C5_ladder_witness :
    3 ≤ sEx5.maxnef ∧
    (IDAHandleNFlag sEx5 NFlag.errorTestFail 0 0 0 rpHalf).1.kk = sEx5.knew ∧
    (IDAHandleNFlag sEx5 NFlag.errorTestFail 0 0 0 rpHalf).1.rr =
      max (1/4) (min (9/10)
        ((9/10) * rpHalf (2 * 0 + 1/10000) (-(1 / ((sEx5.knew : ℚ) + 1))))) ∧
    (IDAHandleNFlag sEx5 NFlag.errorTestFail 0 0 0 rpHalf).1.hh =
      sEx5.hh * (IDAHandleNFlag sEx5 NFlag.errorTestFail 0 0 0 rpHalf).1.rr ∧
    (IDAHandleNFlag sEx5 NFlag.errorTestFail 0 0 0 rpHalf).2.2.2 =
      KFlag.predictAgain := by
  have hmax : 3 ≤ sEx5.maxnef := by norm_num [sEx5, base]
  have h := (C5_error_ladder sEx5 0 0 0 rpHalf hmax).1 rfl
  exact ⟨hmax, h.1, h.2.1, h.2.2.1, h.2.2.2⟩

/-! ## IDACompleteStep (idas.c:4489-4640)

The weighted-RMS norms come from the external vector layer; the embedding
takes them as an oracle `wrms mask x w`, and the libm pow as `rp`. -/

/-- The order-(k+1) error estimate of IDACompleteStep: the max of the
state, quadrature (if errconQ) and sensitivity (if errconS) norms of
`ee - phi[kk+1]` divided by kk+2. -/
def errorKp1 (s : IDAState) (wrms : Bool → Vec → Vec → ℚ) : ℚ :=
  let e1 := wrms s.suppressalg (vlinsum 1 s.ee (-1) (s.phi (s.kk + 1))) s.ewt /
    ((s.kk : ℚ) + 2)
  let e2 := if s.errconQ then
      let eq1 := wrms false (vlinsum 1 s.eeQ (-1) (s.phiQ (s.kk + 1))) s.ewtQ /
        ((s.kk : ℚ) + 2)
      if eq1 > e1 then eq1 else e1
    else e1
  if s.errconS then
    (List.range s.NsS).foldl (fun a is =>
      let e := wrms s.suppressalg
        (vlinsum 1 (s.eeS is) (-1) (s.phiS (s.kk + 1) is)) (s.ewtS is) /
        ((s.kk : ℚ) + 2)
      if e > a then e else a) e2
  else e2

/-- The descending loop `for (j = kused-1; j >= 0; j--)
phi[j] = phi[j] + phi[j+1];` processing indices n-1 down to 0. -/
def phiDownLoop : (ℕ → Vec) → ℕ → (ℕ → Vec)
  | phi, 0 => phi
  | phi, j + 1 => phiDownLoop (upd phi j (vlinsum 1 (phi j) 1 (phi (j + 1)))) j

/-- The order selection of IDACompleteStep (the action = LOWER, MAINTAIN
or RAISE logic), returning the next order together with the estimated
error norm `est` chosen with it.  `kdiff` is computed from the
pre-commit `kused`. -/
def orderDecision (s : IDAState) (error_k error_km1 ekp1 : ℚ) : ℕ × ℚ :=
  if (s.knew : ℤ) = (s.kk : ℤ) - 1 then (s.kk - 1, error_km1)
  else if s.kk = s.maxord then (s.kk, error_k)
  else if (s.kk + 1 ≥ s.ns) ∨ ((s.kk : ℤ) - (s.kused : ℤ) = 1) then (s.kk, error_k)
  else
    let terk := ((s.kk : ℚ) + 1) * error_k
    let terkp1 := ((s.kk : ℚ) + 2) * ekp1
    if s.kk = 1 then
      if terkp1 ≥ (1/2) * terk then (s.kk, error_k) else (s.kk + 1, ekp1)
    else
      let terkm1 := (s.kk : ℚ) * error_km1
      if terkm1 ≤ min terk terkp1 then (s.kk - 1, error_km1)
      else if terkp1 ≥ terk then (s.kk, error_k)
      else (s.kk + 1, ekp1)

/-- The step-size block of IDACompleteStep (idas.c:4581-4596): given the
tentative ratio rr, double h (clipped by hmax_inv) when rr is at least 2,
shrink by rr clamped to [1/2, 9/10] when rr is at most 1, else keep h.
Returns the final (rr, hh) pair. -/
def stepsizeUpdate (h hmax_inv rr0 : ℚ) : ℚ × ℚ :=
  if rr0 ≥ 2 then
    let hnew := 2 * h
    let temp := abs hnew * hmax_inv
    (rr0, if temp > 1 then hnew / temp else hnew)
  else if rr0 ≤ 1 then
    let rr1 := max (1/2) (min (9/10) rr0)
    (rr1, h * rr1)
  else (rr0, h)

/-- The counter, order and step-size part of IDACompleteStep (everything
before the phi updates). -/
def IDACompleteStepCtl (s : IDAState) (error_k error_km1 : ℚ)
    (rp : ℚ → ℚ → ℚ) (wrms : Bool → Vec → Vec → ℚ) : IDAState :=
  let s1 := { s with nst := s.nst + 1, kused := s.kk, hused := s.hh }
  let s1 := if ((s.knew : ℤ) = (s.kk : ℤ) - 1) ∨ s.kk = s.maxord
    then { s1 with phase := 1 } else s1
  if s1.phase = 0 then
    (if s1.nst > 1 then { s1 with kk := s1.kk + 1, hh := 2 * s1.hh } else s1)
  else
    let ae := orderDecision s error_k error_km1 (errorKp1 s wrms)
    let s2 := { s1 with kk := ae.1 }
    let rr0 := rp (2 * ae.2 + 1/10000) (-(1 / ((ae.1 : ℚ) + 1)))
    let u := stepsizeUpdate s2.hh s2.hmax_inv rr0
    { s2 with rr := u.1, hh := u.2 }

/-- IDACompleteStep: commits a successful step; chooses the next order
and step size, then updates the phi arrays (saving ee into phi[kused+1]
for a possible later order raise, then folding the correction into the
divided differences). -/
def IDACompleteStep (s : IDAState) (error_k error_km1 : ℚ)
    (rp : ℚ → ℚ → ℚ) (wrms : Bool → Vec → Vec → ℚ) : IDAState :=
  let s2 := IDACompleteStepCtl s error_k error_km1 rp wrms
  let s2 := if s2.kused < s2.maxord then
      { s2 with
        phi := upd s2.phi (s2.kused + 1) s2.ee
        phiQ := if s2.errconQ then upd s2.phiQ (s2.kused + 1) s2.eeQ else s2.phiQ
        phiS := if s2.errconS then
            (fun j is => if j = s2.kused + 1 ∧ is < s2.NsS then s2.eeS is
              else s2.phiS j is)
          else s2.phiS }
    else s2
  let phiB := phiDownLoop
    (upd s2.phi s2.kused (vlinsum 1 s2.ee 1 (s2.phi s2.kused))) s2.kused
  let phiQB := if s2.quad then
      phiDownLoop (upd s2.phiQ s2.kused (vlinsum 1 s2.eeQ 1 (s2.phiQ s2.kused)))
        s2.kused
    else s2.phiQ
  let phiSB := if s2.sensi then
      (fun j is => if is < s2.NsS then
          phiDownLoop (upd (fun j2 => s2.phiS j2 is) s2.kused
            (vlinsum 1 (s2.eeS is) 1 (s2.phiS s2.kused is))) s2.kused j
        else s2.phiS j is)
    else s2.phiS
  { s2 with phi := phiB, phiQ := phiQB, phiS := phiSB }

/-- The phi tail of IDACompleteStep changes no field outside the phi
arrays. -/
theorem completeStep_kk_hh_rr (s : IDAState) (error_k error_km1 : ℚ)
    (rp : ℚ → ℚ → ℚ) (wrms : Bool → Vec → Vec → ℚ) :
    (IDACompleteStep s error_k error_km1 rp wrms).kk =
      (IDACompleteStepCtl s error_k error_km1 rp wrms).kk ∧
    (IDACompleteStep s error_k error_km1 rp wrms).hh =
      (IDACompleteStepCtl s error_k error_km1 rp wrms).hh ∧
    (IDACompleteStep s error_k error_km1 rp wrms).rr =
      (IDACompleteStepCtl s error_k error_km1 rp wrms).rr ∧
    (IDACompleteStep s error_k error_km1 rp wrms).hmax_inv =
      (IDACompleteStepCtl s error_k error_km1 rp wrms).hmax_inv := by
  simp only [IDACompleteStep]
  by_cases hc : (IDACompleteStepCtl s error_k error_km1 rp wrms).kused <
      (IDACompleteStepCtl s error_k error_km1 rp wrms).maxord
  · rw [if_pos hc]
    exact ⟨rfl, rfl, rfl, rfl⟩
  · rw [if_neg hc]
    exact ⟨rfl, rfl, rfl, rfl⟩

/-- In the phase-1 path, IDACompleteStepCtl commits the order chosen by
orderDecision and the step size chosen by stepsizeUpdate. -/
theorem completeStepCtl_phase1 (s : IDAState) (error_k error_km1 : ℚ)
    (rp : ℚ → ℚ → ℚ) (wrms : Bool → Vec → Vec → ℚ)
    (hphase : s.phase ≠ 0) :
    (IDACompleteStepCtl s error_k error_km1 rp wrms).kk =
      (orderDecision s error_k error_km1 (errorKp1 s wrms)).1 ∧
    (IDACompleteStepCtl s error_k error_km1 rp wrms).hh =
      (stepsizeUpdate s.hh s.hmax_inv
        (rp (2 * (orderDecision s error_k error_km1 (errorKp1 s wrms)).2 + 1/10000)
          (-(1 / (((orderDecision s error_k error_km1 (errorKp1 s wrms)).1 : ℚ) + 1))))).2 := by
  simp only [IDACompleteStepCtl]
  by_cases hg : ((s.knew : ℤ) = (s.kk : ℤ) - 1) ∨ s.kk = s.maxord
  · rw [if_pos hg, if_neg (by simp)]
    exact ⟨rfl, rfl⟩
  · rw [if_neg hg, if_neg (by simpa using hphase)]
    exact ⟨rfl, rfl⟩

/-- Claim C6: when the phase-1 path computes the order-(k+1) estimate
(no early maintain/lower guard fired), the next order follows the
truncation-error rule with terj = (j+1)*erj: at k = 1 raise to 2 unless
terkp1 at least half terk; otherwise lower if terkm1 at most
min(terk, terkp1), else maintain if terkp1 at least terk, else raise. -/
theorem C6_order_decision (s : IDAState) (error_k error_km1 : ℚ)
    (rp : ℚ → ℚ → ℚ) (wrms : Bool → Vec → Vec → ℚ)
    (hphase : s.phase ≠ 0)
    (hknew : ¬((s.knew : ℤ) = (s.kk : ℤ) - 1))
    (hmaxord : s.kk ≠ s.maxord)
    (hns : ¬(s.kk + 1 ≥ s.ns ∨ (s.kk : ℤ) - (s.kused : ℤ) = 1)) :
    (IDACompleteStep s error_k error_km1 rp wrms).kk =
      (if s.kk = 1 then
        (if ((s.kk : ℚ) + 2) * errorKp1 s wrms ≥ (1/2) * (((s.kk : ℚ) + 1) * error_k)
         then s.kk else s.kk + 1)
       else if (s.kk : ℚ) * error_km1 ≤
           min (((s.kk : ℚ) + 1) * error_k) (((s.kk : ℚ) + 2) * errorKp1 s wrms)
         then s.kk - 1
       else if ((s.kk : ℚ) + 2) * errorKp1 s wrms ≥ ((s.kk : ℚ) + 1) * error_k
         then s.kk
       else s.kk + 1) := by
  rw [(completeStep_kk_hh_rr s error_k error_km1 rp wrms).1,
      (completeStepCtl_phase1 s error_k error_km1 rp wrms hphase).1]
  simp only [orderDecision, if_neg hknew, if_neg hmaxord, if_neg hns]
  split_ifs <;> rfl

/-- A concrete stand-in for the external weighted-RMS norm. -/
def wZero : Bool → Vec → Vec → ℚ := fun _ _ _ => 0

/-- A concrete state in phase 1, order 2, with no early order guard
firing. -/
def sEx6 : IDAState :=
  { base with kk := 2, kused := 2, knew := 2, ns := 4, phase := 1 }

theorem C6_order_witness :
    sEx6.phase ≠ 0 ∧
    ¬((sEx6.knew : ℤ) = (sEx6.kk : ℤ) - 1) ∧
    (IDACompleteStep sEx6 1 10 rpHalf wZero).kk = 3 := by
  have h1 : sEx6.phase ≠ 0 := by norm_num [sEx6, base]
  have h2 : ¬((sEx6.knew : ℤ) = (sEx6.kk : ℤ) - 1) := by norm_num [sEx6, base]
  have h3 : sEx6.kk ≠ sEx6.maxord := by norm_num [sEx6, base]
  have h4 : ¬(sEx6.kk + 1 ≥ sEx6.ns ∨ (sEx6.kk : ℤ) - (sEx6.kused : ℤ) = 1) := by
    norm_num [sEx6, base]
  have h := C6_order_decision sEx6 1 10 rpHalf wZero h1 h2 h3 h4
  refine ⟨h1, h2, ?_⟩
  rw [h]
  have he : errorKp1 sEx6 wZero = 0 := by
    norm_num [errorKp1, wZero, sEx6, base]
  rw [he]
  norm_num [sEx6, base]

/-! ## Claim C7: step-size bounds

The initial step selection lives in IDASolve (idas.c:1484-1513): the
user step or the heuristic 0.001*tdist guess is clamped by
rh = ABS(hh)*hmax_inv; if (rh > ONE) hh /= rh; and, with a stop time,
clipped to tstop - tn on overshoot.  The external WRMS norms feeding the
heuristic enter through the ypnorm parameter.  The constraint-recovery
factor is computed in IDANls (idas.c:3483-3484):
rr = PT9*N_VMinQuotient(phi[0], mm*(phi[0]-yy)); rr = MAX(rr, PT1);
the quotient enters through the minq parameter. -/

def hClamp (x b : ℚ) : ℚ :=
  let rh := abs x * b
  if rh > 1 then x / rh else x

def tstopClipInit (tn hh tstop : ℚ) : Option ℚ :=
  if (tstop - tn) * hh < 0 then none
  else if (tn + hh - tstop) * hh > 0 then some (tstop - tn)
  else some hh

def initialStepSelect (hin tout tn tdist ypnorm b : ℚ)
    (istop : Bool) (tstop : ℚ) : Option ℚ :=
  if hin ≠ 0 ∧ (tout - tn) * hin < 0 then none
  else
    let hh := if hin = 0 then
        (let hh0 := (1/1000) * tdist
         let hh1 := if ypnorm > (1/2) / hh0 then (1/2) / ypnorm else hh0
         if tout < tn then -hh1 else hh1)
      else hin
    let hh := hClamp hh b
    if istop then tstopClipInit tn hh tstop else some hh

def constraintRR (minq : ℚ) : ℚ := max ((9/10) * minq) (1/10)

theorem clip_bound_gen (x b : ℚ) (hgt : 1 < abs x * b) :
    abs (x / (abs x * b)) * b ≤ 1 := by
  have hpos : 0 < abs x * b := lt_trans one_pos hgt
  rw [abs_div, abs_of_pos hpos, div_mul_eq_mul_div, div_le_one hpos]

theorem hClamp_bound (x b : ℚ) : abs (hClamp x b) * b ≤ 1 := by
  simp only [hClamp]
  split_ifs with h
  · exact clip_bound_gen x b h
  · exact le_of_not_lt h

theorem tstopClipAbs (d h : ℚ) (hd : 0 ≤ d * h) (hgt : (h - d) * h > 0) :
    abs d ≤ abs h := by
  have hne : h ≠ 0 := by
    intro h0
    rw [h0] at hgt
    simp at hgt
  have habs : abs d * abs h < abs h * abs h := by
    rw [← abs_mul, abs_of_nonneg hd, abs_mul_abs_self h]
    nlinarith
  have hpos : 0 < abs h := abs_pos.mpr hne
  exact le_of_lt ((mul_lt_mul_right hpos).mp habs)

theorem tstopClipInit_bound (tn hh tstop b h0 : ℚ) (hb0 : 0 ≤ b)
    (hb : abs hh * b ≤ 1) (hres : tstopClipInit tn hh tstop = some h0) :
    abs h0 * b ≤ 1 := by
  simp only [tstopClipInit] at hres
  by_cases h1 : (tstop - tn) * hh < 0
  · rw [if_pos h1] at hres
    exact absurd hres (by simp)
  · rw [if_neg h1] at hres
    by_cases h2 : (tn + hh - tstop) * hh > 0
    · rw [if_pos h2] at hres
      injection hres with h
      rw [← h]
      have hgt : (hh - (tstop - tn)) * hh > 0 := by
        have he : tn + hh - tstop = hh - (tstop - tn) := by ring
        rw [← he]
        exact h2
      calc abs (tstop - tn) * b
          ≤ abs hh * b :=
            mul_le_mul_of_nonneg_right
              (tstopClipAbs _ _ (le_of_not_lt h1) hgt) hb0
        _ ≤ 1 := hb
    · rw [if_neg h2] at hres
      injection hres with h
      rw [← h]
      exact hb

theorem initialStepSelect_bound (hin tout tn tdist ypnorm b tstop h0 : ℚ)
    (istop : Bool) (hb0 : 0 ≤ b)
    (hres : initialStepSelect hin tout tn tdist ypnorm b istop tstop = some h0) :
    abs h0 * b ≤ 1 := by
  simp only [initialStepSelect] at hres
  by_cases h1 : hin ≠ 0 ∧ (tout - tn) * hin < 0
  · rw [if_pos h1] at hres
    exact absurd hres (by simp)
  · rw [if_neg h1] at hres
    cases istop with
    | false =>
      rw [if_neg (by simp)] at hres
      injection hres with h
      rw [← h]
      exact hClamp_bound _ b
    | true =>
      rw [if_pos rfl] at hres
      exact tstopClipInit_bound tn _ tstop b h0 hb0 (hClamp_bound _ b) hres

theorem clip_bound (h b : ℚ) (hgt : 1 < abs (2 * h) * b) :
    abs (2 * h / (abs (2 * h) * b)) * b ≤ 1 := by
  have hpos : 0 < abs (2 * h) * b := lt_trans one_pos hgt
  rw [abs_div, abs_of_pos hpos, div_mul_eq_mul_div, div_le_one hpos]

theorem shrink_bound (h b c : ℚ) (_hb0 : 0 ≤ b) (hb : abs h * b ≤ 1)
    (hc0 : 0 ≤ c) (hc1 : c ≤ 1) : abs (h * c) * b ≤ 1 := by
  rw [abs_mul, abs_of_nonneg hc0]
  have h1 : abs h * c * b = abs h * b * c := by ring
  rw [h1]
  calc abs h * b * c ≤ 1 * c := mul_le_mul_of_nonneg_right hb hc0
    _ = c := one_mul c
    _ ≤ 1 := hc1

theorem clampHalf_nonneg (x : ℚ) : 0 ≤ max (1/2) (min (9/10) x) :=
  le_trans (by norm_num) (le_max_left _ _)

theorem clampHalf_le_one (x : ℚ) : max (1/2) (min (9/10) x) ≤ 1 :=
  max_le (by norm_num) (le_trans (min_le_left _ _) (by norm_num))

theorem abs_mul_le_self (h c : ℚ) (hc : abs c ≤ 1) : abs (h * c) ≤ abs h := by
  rw [abs_mul]
  calc abs h * abs c ≤ abs h * 1 := mul_le_mul_of_nonneg_left hc (abs_nonneg h)
    _ = abs h := mul_one _

theorem clampQuarter_abs_le_one (x : ℚ) : abs (max (1/4) (min (9/10) x)) ≤ 1 := by
  rw [abs_of_pos (lt_of_lt_of_le (by norm_num) (le_max_left _ _))]
  exact max_le (by norm_num) (le_trans (min_le_left _ _) (by norm_num))

/-- The step-size block never breaks the h_max bound. -/
theorem stepsizeUpdate_bound (h b rr0 : ℚ) (hb0 : 0 ≤ b) (hb : abs h * b ≤ 1) :
    abs (stepsizeUpdate h b rr0).2 * b ≤ 1 := by
  simp only [stepsizeUpdate]
  split_ifs with h1 h2 h3
  · exact clip_bound h b h2
  · exact le_of_not_lt h2
  · exact shrink_bound h b _ hb0 hb (clampHalf_nonneg _) (clampHalf_le_one _)
  · exact hb

/-- Claim C7 (amended): with h_max_inv nonnegative, the initial step
selection of IDASolve (clamp by rh = |h|*h_max_inv, then the optional
clip to tstop - tn) returns a step with |h|*h_max_inv at most 1, the
phase-1 path of IDACompleteStep keeps |h|*h_max_inv at most 1, and for
every failure flag other than constraint recovery IDAHandleNFlag never
increases |h| (its factor is 1/4 or a value clamped to [1/4, 9/10]); on
constraint recovery, however, h is multiplied by the stored
rr = max(0.9*minQuotient, 0.1), which has no upper bound.  The code has
no h_min, so no lower bound is enforced, the phase-0 doubling is not
clamped, and the constraint-recovery factor can exceed 1 (see the
counterexample). -/
theorem C7_stepsize_bounds (s : IDAState)
    (hin tout tdist ypnorm tstop h0 : ℚ) (istop : Bool)
    (error_k error_km1 est : ℚ)
    (rp : ℚ → ℚ → ℚ) (wrms : Bool → Vec → Vec → ℚ) (nflag : NFlag) (ncf nef : ℕ)
    (hmx : 0 ≤ s.hmax_inv) (hb : abs s.hh * s.hmax_inv ≤ 1)
    (hphase : s.phase ≠ 0) :
    (initialStepSelect hin tout s.tn tdist ypnorm s.hmax_inv istop tstop =
        some h0 → abs h0 * s.hmax_inv ≤ 1) ∧
    abs (IDACompleteStep s error_k error_km1 rp wrms).hh * s.hmax_inv ≤ 1 ∧
    (nflag ≠ NFlag.constrRecvr →
      abs (IDAHandleNFlag s nflag ncf nef est rp).1.hh ≤ abs s.hh) ∧
    (IDAHandleNFlag s NFlag.constrRecvr ncf nef est rp).1.hh = s.hh * s.rr := by
  refine ⟨?_, ?_, ?_, ?_⟩
  · intro hres
    exact initialStepSelect_bound hin tout s.tn tdist ypnorm s.hmax_inv tstop
      h0 istop hmx hres
  · rw [(completeStep_kk_hh_rr s error_k error_km1 rp wrms).2.1,
        (completeStepCtl_phase1 s error_k error_km1 rp wrms hphase).2]
    exact stepsizeUpdate_bound s.hh s.hmax_inv _ hmx hb
  · intro hncr
    have hq : |(1/4 : ℚ)| ≤ 1 := by
      rw [abs_of_nonneg (by norm_num : (0:ℚ) ≤ 1/4)]
      norm_num
    simp only [IDAHandleNFlag]
    by_cases hef : nflag = NFlag.errorTestFail
    · rw [if_neg (not_not_intro hef)]
      split_ifs with h1 h2 h3
      · exact abs_mul_le_self _ _ (clampQuarter_abs_le_one _)
      · exact abs_mul_le_self _ _ hq
      · exact abs_mul_le_self _ _ hq
      · exact le_refl _
    · rw [if_pos hef]
      by_cases hneg : nflag.isNeg
      · rw [if_pos hneg]
      · rw [if_neg hneg]
        rw [if_pos hncr]
        split_ifs <;> exact abs_mul_le_self _ _ hq
  · simp only [IDAHandleNFlag]
    rw [if_pos (show NFlag.constrRecvr ≠ NFlag.errorTestFail by decide)]
    rw [if_neg (show ¬NFlag.constrRecvr.isNeg = true by decide)]
    rw [if_neg (show ¬NFlag.constrRecvr ≠ NFlag.constrRecvr by decide)]
    split_ifs <;> rfl

/-- A concrete phase-1 state within the h_max bound. -/
def sEx7b : IDAState :=
  { base with phase := 1, hh := 1, hmax_inv := 1, rr := 1/2,
              kk := 1, knew := 1, kused := 1, ns := 3 }

theorem C7_bounds_witness :
    (0 ≤ sEx7b.hmax_inv ∧ abs sEx7b.hh * sEx7b.hmax_inv ≤ 1 ∧ sEx7b.phase ≠ 0) ∧
    (initialStepSelect 2 10 sEx7b.tn 10 0 sEx7b.hmax_inv false 0 = some 1 ∧
      abs (1 : ℚ) * sEx7b.hmax_inv ≤ 1) ∧
    abs (IDACompleteStep sEx7b 1 1 rpHalf wZero).hh * sEx7b.hmax_inv ≤ 1 ∧
    abs (IDAHandleNFlag sEx7b NFlag.resRecvr 0 0 0 rpHalf).1.hh ≤ abs sEx7b.hh ∧
    (IDAHandleNFlag sEx7b NFlag.constrRecvr 0 0 0 rpHalf).1.hh =
      sEx7b.hh * sEx7b.rr := by
  have hmx : 0 ≤ sEx7b.hmax_inv := by norm_num [sEx7b, base]
  have hb : abs sEx7b.hh * sEx7b.hmax_inv ≤ 1 := by norm_num [sEx7b, base]
  have hp : sEx7b.phase ≠ 0 := by norm_num [sEx7b, base]
  have hsel : initialStepSelect 2 10 sEx7b.tn 10 0 sEx7b.hmax_inv false 0 =
      some 1 := by
    norm_num [initialStepSelect, hClamp, sEx7b, base]
  have h := C7_stepsize_bounds sEx7b 2 10 10 0 0 1 false 1 1 0 rpHalf wZero
    NFlag.resRecvr 0 0 hmx hb hp
  exact ⟨⟨hmx, hb, hp⟩, ⟨hsel, h.1 hsel⟩, h.2.1, h.2.2.1 (by decide), h.2.2.2⟩

/-- A phase-0 state at the h_max bound: the next doubling breaks it. -/
def sEx7 : IDAState :=
  { base with phase := 0, nst := 1, kk := 1, knew := 1, hh := 1, hmax_inv := 1 }

/-- A phase-1 state at the h_max bound whose stored constraint-recovery
factor came out of rr = max(0.9*minQuotient, 0.1) with minQuotient = 10. -/
def sEx7c : IDAState :=
  { base with phase := 1, hh := 1, hmax_inv := 1, rr := constraintRR 10,
              kk := 1, knew := 1 }

/-- Claim C7 as stated is false in two ways: the phase-0 doubling of
IDACompleteStep is not clamped by h_max_inv, so a step attempt can
exceed 1/h_max_inv; and on constraint recovery IDAHandleNFlag multiplies
h by rr = max(0.9*minQuotient, 0.1), which is unbounded above, so the
failure path can grow |h| past 1/h_max_inv as well. -/
theorem C7_phase0_counterexample :
    (abs sEx7.hh * sEx7.hmax_inv ≤ 1 ∧
      1 < abs (IDACompleteStep sEx7 0 0 rpHalf wZero).hh * sEx7.hmax_inv) ∧
    (abs sEx7c.hh * sEx7c.hmax_inv ≤ 1 ∧
      sEx7c.rr = constraintRR 10 ∧
      abs sEx7c.hh <
        abs (IDAHandleNFlag sEx7c NFlag.constrRecvr 0 0 0 rpHalf).1.hh ∧
      1 < abs (IDAHandleNFlag sEx7c NFlag.constrRecvr 0 0 0 rpHalf).1.hh *
            sEx7c.hmax_inv) := by
  constructor
  · constructor
    · norm_num [sEx7, base]
    · rw [(completeStep_kk_hh_rr sEx7 0 0 rpHalf wZero).2.1]
      have hh2 : (IDACompleteStepCtl sEx7 0 0 rpHalf wZero).hh = 2 := by
        norm_num [IDACompleteStepCtl, sEx7, base]
      rw [hh2]
      norm_num [sEx7, base]
  · have hcr : constraintRR 10 = 9 := by
      rw [constraintRR, max_eq_left (by norm_num)]
      norm_num
    have hhh : (IDAHandleNFlag sEx7c NFlag.constrRecvr 0 0 0 rpHalf).1.hh = 9 := by
      simp only [IDAHandleNFlag]
      rw [if_pos (show NFlag.constrRecvr ≠ NFlag.errorTestFail by decide)]
      rw [if_neg (show ¬NFlag.constrRecvr.isNeg = true by decide)]
      rw [if_neg (show ¬NFlag.constrRecvr ≠ NFlag.constrRecvr by decide)]
      norm_num [sEx7c, base, hcr]
    refine ⟨by norm_num [sEx7c, base], rfl, ?_, ?_⟩
    · rw [hhh]
      norm_num [sEx7c, base]
    · rw [hhh]
      norm_num [sEx7c, base]

/-! ## IDAGetSolution (idas.c:1657-1700) -/

/-- The interpolation loop `for (j=1; j <= kord; j++)` of IDAGetSolution,
iterated `n` times starting at index `j` with carried c, d, gam. -/
def getSolLoop (psi : ℕ → ℚ) (phi : ℕ → Vec) (delt : ℚ) :
    ℕ → ℕ → ℚ → ℚ → ℚ → Vec → Vec → Vec × Vec
  | 0, _, _, _, _, y, yp => (y, yp)
  | n + 1, j, c, d, gam, y, yp =>
    let d1 := d * gam + c / psi (j - 1)
    let c1 := c * gam
    let gam1 := (delt + psi (j - 1)) / psi j
    getSolLoop psi phi delt n (j + 1) c1 d1 gam1
      (vlinsum 1 y c1 (phi j)) (vlinsum 1 yp d1 (phi j))

/-- IDAGetSolution: evaluates y(t) and its derivative from the divided
difference history.  Returns none for the BadT error. -/
def IDAGetSolution (s : IDAState) (t : ℚ) : Option (Vec × Vec) :=
  let tfuzz := 100 * s.uround * (s.tn + s.hh)
  let tp := s.tn - s.hused - tfuzz
  if (t - tp) * s.hh < 0 then none
  else
    let kord := if s.kused = 0 then 1 else s.kused
    let delt := t - s.tn
    some (getSolLoop s.psi s.phi delt kord 1 1 0 (delt / s.psi 0)
      (vscale 1 (s.phi 0)) (vzero (s.phi 0)))

theorem vscale_one (v : Vec) : vscale 1 v = v := by
  simp [vscale]

theorem vlinsum_zero_left (d : ℚ) (v w : Vec) (hlen : v.length = w.length) :
    vlinsum 1 (vzero v) d w = vscale d w := by
  induction v generalizing w with
  | nil =>
    cases w with
    | nil => rfl
    | cons b bs => simp at hlen
  | cons a as ih =>
    cases w with
    | nil => simp at hlen
    | cons b bs =>
      simp only [List.length_cons] at hlen
      show (1 * 0 + d * b) :: vlinsum 1 (vzero as) d bs = (d * b) :: vscale d bs
      rw [ih bs (by omega)]
      norm_num

/-- Claim C2 (amended): IDAGetSolution fails with BadT exactly when
(t - (tn - hused - tfuzz)) * h is negative, with
tfuzz = 100*uround*(tn + hh) (no absolute values, and no rejection of
times beyond tn); on success with kused = 0 it uses kord = 1 and returns
y = phi[0] + ((t-tn)/psi[0])*phi[1] and y' = (1/psi[0])*phi[1]. -/
theorem C2_getSolution (s : IDAState) (t : ℚ)
    (hlen : (s.phi 0).length = (s.phi 1).length) :
    (IDAGetSolution s t = none ↔
      (t - (s.tn - s.hused - 100 * s.uround * (s.tn + s.hh))) * s.hh < 0) ∧
    (s.kused = 0 →
      ¬((t - (s.tn - s.hused - 100 * s.uround * (s.tn + s.hh))) * s.hh < 0) →
      IDAGetSolution s t = some
        (vlinsum 1 (s.phi 0) ((t - s.tn) / s.psi 0) (s.phi 1),
         vscale (1 / s.psi 0) (s.phi 1))) := by
  constructor
  · simp only [IDAGetSolution]
    split_ifs with h
    · simp [h]
    · simp [h]
  · intro hk hno
    simp only [IDAGetSolution, if_neg hno, hk]
    show some (vlinsum 1 (vscale 1 (s.phi 0)) (1 * ((t - s.tn) / s.psi 0)) (s.phi 1),
        vlinsum 1 (vzero (s.phi 0)) (0 * ((t - s.tn) / s.psi 0) + 1 / s.psi 0)
          (s.phi 1)) = _
    rw [vscale_one, one_mul,
        show (0 : ℚ) * ((t - s.tn) / s.psi 0) + 1 / s.psi 0 = 1 / s.psi 0 from by
          norm_num,
        vlinsum_zero_left _ _ _ hlen]

/-- A state one step past t = 0 with unit step size. -/
def sEx2 : IDAState :=
  { base with tn := 1, hh := 1, hused := 1, kused := 1, uround := 1/1000000,
              psi := fun _ => 1, phi := fun _ => [1] }

/-- Claim C2 as stated is false: a time far beyond tn (outside
[tn - hused, tn] plus any round-off fuzz) is accepted, because the code
only rejects times beyond t_{n-1} against the integration direction. -/
theorem C2_badT_counterexample :
    sEx2.tn + 100 * sEx2.uround * (abs sEx2.tn + abs sEx2.hh) < 10 ∧
    IDAGetSolution sEx2 10 ≠ none := by
  constructor
  · norm_num [sEx2, base]
  · simp only [IDAGetSolution]
    split_ifs with h h2
    · exfalso
      norm_num [sEx2, base] at h
    · simp
    · simp

/-- A freshly initialized state (no step taken yet). -/
def sEx2b : IDAState :=
  { base with tn := 0, hh := 1, hused := 0, kused := 0,
              psi := fun _ => 1, phi := fun j => [(j : ℚ)] }

theorem C2_getSolution_witness :
    sEx2b.kused = 0 ∧
    IDAGetSolution sEx2b 0 = some
      (vlinsum 1 (sEx2b.phi 0) ((0 - sEx2b.tn) / sEx2b.psi 0) (sEx2b.phi 1),
       vscale (1 / sEx2b.psi 0) (sEx2b.phi 1)) := by
  have h := (C2_getSolution sEx2b 0 rfl).2 rfl (by norm_num [sEx2b, base])
  exact ⟨rfl, h⟩

/-! ## IDANewtonIter (idas.c:3676-3770)

The linear solver, the residual and the vector norms are external, so the
iteration is driven by an oracle giving, for each iteration index m, the
return flag of lsolve, the weighted norm of the returned correction, and
the return flag of the subsequent residual evaluation.  `ssInit` is the
persistent `ss` field of IDAMem as set by IDANls before the call. -/

structure NewtonIn where
  epsNewt : ℚ
  toldel : ℚ
  maxcor : ℕ
  ssInit : ℚ
  lsolveFlag : ℕ → ℤ
  delnrm : ℕ → ℚ
  resFlag : ℕ → ℤ

inductive NRet where
  | success
  | lsolveFail
  | lsolveRecvr
  | nconvRecvr
  | resFail
  | resRecvr
  deriving DecidableEq

/-- The Newton loop; returns the return code and the value of mnewt at
exit.  The fuel argument only bounds the recursion; the mnewt >= maxcor
test exits first whenever the initial fuel exceeds maxcor. -/
def newtonLoop (inp : NewtonIn) (rp : ℚ → ℚ → ℚ) :
    ℕ → ℕ → ℚ → ℚ → NRet × ℕ
  | 0, m, _, _ => (NRet.nconvRecvr, m)
  | fuel + 1, m, oldnrm, ss =>
    if inp.lsolveFlag m < 0 then (NRet.lsolveFail, m)
    else if 0 < inp.lsolveFlag m then (NRet.lsolveRecvr, m)
    else
      let delnrm := inp.delnrm m
      if m = 0 then
        if delnrm ≤ inp.toldel then (NRet.success, m)
        else if ss * delnrm ≤ inp.epsNewt then (NRet.success, m)
        else if m + 1 ≥ inp.maxcor then (NRet.nconvRecvr, m)
        else if inp.resFlag m < 0 then (NRet.resFail, m)
        else if 0 < inp.resFlag m then (NRet.resRecvr, m)
        else newtonLoop inp rp fuel (m + 1) delnrm ss
      else
        let rate := rp (delnrm / oldnrm) (1 / (m : ℚ))
        if rate > 9/10 then (NRet.nconvRecvr, m)
        else
          let ss1 := rate / (1 - rate)
          if ss1 * delnrm ≤ inp.epsNewt then (NRet.success, m)
          else if m + 1 ≥ inp.maxcor then (NRet.nconvRecvr, m)
          else if inp.resFlag m < 0 then (NRet.resFail, m)
          else if 0 < inp.resFlag m then (NRet.resRecvr, m)
          else newtonLoop inp rp fuel (m + 1) oldnrm ss1

/-- IDANewtonIter: run the loop from mnewt = 0 with the persistent ss. -/
def IDANewtonIter (inp : NewtonIn) (rp : ℚ → ℚ → ℚ) : NRet × ℕ :=
  newtonLoop inp rp (inp.maxcor + 1) 0 0 inp.ssInit

theorem newtonLoop_m_ge (inp : NewtonIn) (rp : ℚ → ℚ → ℚ) :
    ∀ (fuel m : ℕ) (oldnrm ss : ℚ), m ≤ (newtonLoop inp rp fuel m oldnrm ss).2 := by
  intro fuel
  induction fuel with
  | zero => intro m oldnrm ss; exact le_refl m
  | succ fuel ih =>
    intro m oldnrm ss
    simp only [newtonLoop]
    split_ifs <;> first
      | exact le_refl m
      | exact le_trans (Nat.le_succ m) (ih (m + 1) _ _)

theorem newtonLoop_m_lt (inp : NewtonIn) (rp : ℚ → ℚ → ℚ) :
    ∀ (fuel m : ℕ) (oldnrm ss : ℚ), m < inp.maxcor →
      (newtonLoop inp rp fuel m oldnrm ss).2 < inp.maxcor := by
  intro fuel
  induction fuel with
  | zero => intro m oldnrm ss hm; exact hm
  | succ fuel ih =>
    intro m oldnrm ss hm
    simp only [newtonLoop]
    split_ifs with h1 h2 h3 h4 h5 h6 h7 h8 <;> first
      | exact hm
      | (apply ih; omega)

theorem newtonLoop_continue0 (inp : NewtonIn) (rp : ℚ → ℚ → ℚ)
    (fuel : ℕ) (oldnrm ss : ℚ)
    (hl : inp.lsolveFlag 0 = 0)
    (h1 : ¬(inp.delnrm 0 ≤ inp.toldel))
    (h2 : ¬(ss * inp.delnrm 0 ≤ inp.epsNewt))
    (h3 : 1 < inp.maxcor)
    (h4 : inp.resFlag 0 = 0) :
    newtonLoop inp rp (fuel + 1) 0 oldnrm ss =
      newtonLoop inp rp fuel 1 (inp.delnrm 0) ss := by
  have hl1 : ¬(inp.lsolveFlag 0 < 0) := by rw [hl]; norm_num
  have hl2 : ¬(0 < inp.lsolveFlag 0) := by rw [hl]; norm_num
  have hr1 : ¬(inp.resFlag 0 < 0) := by rw [h4]; norm_num
  have hr2 : ¬(0 < inp.resFlag 0) := by rw [h4]; norm_num
  have hmx : ¬(0 + 1 ≥ inp.maxcor) := by omega
  simp only [newtonLoop, if_neg hl1, if_neg hl2, if_pos rfl, if_neg h1, if_neg h2,
    if_neg hmx, if_neg hr1, if_neg hr2]
  norm_num

theorem newtonLoop_rate_reject (inp : NewtonIn) (rp : ℚ → ℚ → ℚ)
    (fuel m : ℕ) (oldnrm ss : ℚ)
    (hl : inp.lsolveFlag m = 0) (hm : m ≠ 0)
    (hrate : 9/10 < rp (inp.delnrm m / oldnrm) (1 / (m : ℚ))) :
    newtonLoop inp rp (fuel + 1) m oldnrm ss = (NRet.nconvRecvr, m) := by
  have hl1 : ¬(inp.lsolveFlag m < 0) := by rw [hl]; norm_num
  have hl2 : ¬(0 < inp.lsolveFlag m) := by rw [hl]; norm_num
  simp only [newtonLoop, if_neg hl1, if_neg hl2, if_neg hm, if_pos hrate]

theorem newtonLoop_rate_test (inp : NewtonIn) (rp : ℚ → ℚ → ℚ)
    (fuel m : ℕ) (oldnrm ss : ℚ)
    (hl : inp.lsolveFlag m = 0) (hm : m ≠ 0)
    (hrate : ¬(9/10 < rp (inp.delnrm m / oldnrm) (1 / (m : ℚ)))) :
    (newtonLoop inp rp (fuel + 1) m oldnrm ss = (NRet.success, m) ↔
      rp (inp.delnrm m / oldnrm) (1 / (m : ℚ)) /
          (1 - rp (inp.delnrm m / oldnrm) (1 / (m : ℚ))) * inp.delnrm m ≤
        inp.epsNewt) := by
  have hl1 : ¬(inp.lsolveFlag m < 0) := by rw [hl]; norm_num
  have hl2 : ¬(0 < inp.lsolveFlag m) := by rw [hl]; norm_num
  simp only [newtonLoop, if_neg hl1, if_neg hl2, if_neg hm, if_neg hrate]
  by_cases hcv : rp (inp.delnrm m / oldnrm) (1 / (m : ℚ)) /
      (1 - rp (inp.delnrm m / oldnrm) (1 / (m : ℚ))) * inp.delnrm m ≤ inp.epsNewt
  · rw [if_pos hcv]
    exact iff_of_true rfl hcv
  · rw [if_neg hcv]
    refine iff_of_false ?_ hcv
    split_ifs with ha hb hc
    · intro heq
      exact NRet.noConfusion (congrArg Prod.fst heq)
    · intro heq
      exact NRet.noConfusion (congrArg Prod.fst heq)
    · intro heq
      exact NRet.noConfusion (congrArg Prod.fst heq)
    · intro heq
      have h2 := congrArg Prod.snd heq
      simp only at h2
      have h3 := newtonLoop_m_ge inp rp fuel (m + 1) oldnrm
        (rp (inp.delnrm m / oldnrm) (1 / (m : ℚ)) /
          (1 - rp (inp.delnrm m / oldnrm) (1 / (m : ℚ))))
      rw [h2] at h3
      omega

/-- Claim C3 (amended): at most maxcor (= 4) iterations are taken; a
first iterate whose norm is at most toldel = 0.0001*epsNewt is accepted
immediately; a rate above RATEMAX = 0.9 aborts the iteration with
NonConvergenceRecoverable (it is not capped); and for m at least 1 the
iterate is accepted at m exactly when rate/(1-rate)*delnrm is at most
epsNewt (epsNewt itself is EPCON = 0.33: the test constant is not scaled
by a further 0.33). -/
theorem C3_newton_convergence (inp : NewtonIn) (rp : ℚ → ℚ → ℚ)
    (fuel m : ℕ) (oldnrm ss : ℚ)
    (hmc : 1 ≤ inp.maxcor)
    (hl : inp.lsolveFlag m = 0) (hm : 1 ≤ m)
    (htd : inp.toldel = 1/10000 * inp.epsNewt) :
    ((IDANewtonIter inp rp).2 < inp.maxcor) ∧
    (inp.lsolveFlag 0 = 0 → inp.delnrm 0 ≤ 1/10000 * inp.epsNewt →
      IDANewtonIter inp rp = (NRet.success, 0)) ∧
    (9/10 < rp (inp.delnrm m / oldnrm) (1 / (m : ℚ)) →
      newtonLoop inp rp (fuel + 1) m oldnrm ss = (NRet.nconvRecvr, m)) ∧
    (¬(9/10 < rp (inp.delnrm m / oldnrm) (1 / (m : ℚ))) →
      (newtonLoop inp rp (fuel + 1) m oldnrm ss = (NRet.success, m) ↔
        rp (inp.delnrm m / oldnrm) (1 / (m : ℚ)) /
            (1 - rp (inp.delnrm m / oldnrm) (1 / (m : ℚ))) * inp.delnrm m ≤
          inp.epsNewt)) := by
  refine ⟨?_, ?_, ?_, ?_⟩
  · exact newtonLoop_m_lt inp rp (inp.maxcor + 1) 0 0 inp.ssInit (by omega)
  · intro hl0 hd0
    have hl1 : ¬(inp.lsolveFlag 0 < 0) := by rw [hl0]; norm_num
    have hl2 : ¬(0 < inp.lsolveFlag 0) := by rw [hl0]; norm_num
    have hd : inp.delnrm 0 ≤ inp.toldel := by rw [htd]; exact hd0
    simp only [IDANewtonIter, newtonLoop, if_neg hl1, if_neg hl2, if_pos rfl,
      if_pos hd]
    norm_num
  · intro hrate
    exact newtonLoop_rate_reject inp rp fuel m oldnrm ss hl (by omega) hrate
  · intro hrate
    exact newtonLoop_rate_test inp rp fuel m oldnrm ss hl (by omega) hrate

/-- The external pow evaluated only at exponent 1, where pow(b,1) = b. -/
def rpId : ℚ → ℚ → ℚ := fun b _ => b

/-- Oracle run on which the code accepts at m = 1 with
rate/(1-rate)*delnrm = 4/15, above the claimed threshold 0.33*epsNewt. -/
def inpC3 : NewtonIn :=
  { epsNewt := 33/100, toldel := 33/1000000, maxcor := 4, ssInit := 20,
    lsolveFlag := fun _ => 0, delnrm := fun m => if m = 0 then 1 else 2/5,
    resFlag := fun _ => 0 }

/-- Oracle run with rate = 1 (above RATEMAX) but tiny correction: a
capped rate would pass even the claimed stricter test, yet the code
returns NonConvergenceRecoverable. -/
def inpC3b : NewtonIn :=
  { epsNewt := 33/100, toldel := 33/1000000, maxcor := 4, ssInit := 100,
    lsolveFlag := fun _ => 0, delnrm := fun _ => 1/100,
    resFlag := fun _ => 0 }

theorem C3_newton_witness :
    1 ≤ inpC3.maxcor ∧ inpC3.lsolveFlag 1 = 0 ∧
    inpC3.toldel = 1/10000 * inpC3.epsNewt ∧
    (IDANewtonIter inpC3 rpId).2 < inpC3.maxcor := by
  have h := C3_newton_convergence inpC3 rpId 3 1 1 20 (by norm_num [inpC3])
    (by norm_num [inpC3]) (by norm_num) (by norm_num [inpC3])
  exact ⟨by norm_num [inpC3], by norm_num [inpC3], by norm_num [inpC3], h.1⟩

/-- Claim C3 as stated is false on two counts, shown on concrete oracle
runs: the code accepts with rate/(1-rate)*delnrm strictly above
0.33*epsNewt, and a rate above 0.9 is not capped but aborts even when
the capped test would accept. -/
theorem C3_newton_counterexample :
    (IDANewtonIter inpC3 rpId = (NRet.success, 1) ∧
      33/100 * inpC3.epsNewt <
        rpId (inpC3.delnrm 1 / inpC3.delnrm 0) (1 / (1 : ℚ)) /
            (1 - rpId (inpC3.delnrm 1 / inpC3.delnrm 0) (1 / (1 : ℚ))) *
          inpC3.delnrm 1) ∧
    (IDANewtonIter inpC3b rpId = (NRet.nconvRecvr, 1) ∧
      9/10 / (1 - 9/10) * inpC3b.delnrm 1 ≤ 33/100 * inpC3b.epsNewt) := by
  refine ⟨⟨?_, ?_⟩, ?_, ?_⟩
  · show newtonLoop inpC3 rpId (inpC3.maxcor + 1) 0 0 inpC3.ssInit = _
    rw [newtonLoop_continue0 inpC3 rpId inpC3.maxcor 0 inpC3.ssInit
      (by norm_num [inpC3]) (by norm_num [inpC3]) (by norm_num [inpC3])
      (by norm_num [inpC3]) (by norm_num [inpC3])]
    rw [show inpC3.maxcor = 3 + 1 from rfl]
    rw [(newtonLoop_rate_test inpC3 rpId 3 1 (inpC3.delnrm 0) inpC3.ssInit
      (by norm_num [inpC3]) (by norm_num) (by norm_num [inpC3, rpId])).mpr
      (by norm_num [inpC3, rpId])]
  · norm_num [inpC3, rpId]
  · show newtonLoop inpC3b rpId (inpC3b.maxcor + 1) 0 0 inpC3b.ssInit = _
    rw [newtonLoop_continue0 inpC3b rpId inpC3b.maxcor 0 inpC3b.ssInit
      (by norm_num [inpC3b]) (by norm_num [inpC3b]) (by norm_num [inpC3b])
      (by norm_num [inpC3b]) (by norm_num [inpC3b])]
    rw [show inpC3b.maxcor = 3 + 1 from rfl]
    exact newtonLoop_rate_reject inpC3b rpId 3 1 (inpC3b.delnrm 0) inpC3b.ssInit
      (by norm_num [inpC3b]) (by norm_num) (by norm_num [inpC3b, rpId])
  · norm_num [inpC3b]

/-! ## IDAStopTest1 and IDAStopTest2 (idas.c:2805-2973) -/

inductive ITask where
  | normal
  | oneStep
  | normalTstop
  | oneStepTstop
  deriving DecidableEq

inductive StopRet where
  | continueSteps
  | success
  | tstopReturn
  | illInput
  deriving DecidableEq

/-- The result of a stop test: the (possibly hh-clipped) state, the value
written into *tret if any, the solution pair written into yret/ypret if
any, and the return code. -/
structure StopRes where
  s : IDAState
  tret : Option ℚ
  sol : Option (Vec × Vec)
  ret : StopRet

/-- The clip `if ((tn + hh - tstop)*hh > 0) hh = tstop - tn;`. -/
def tstopClip (s : IDAState) : IDAState :=
  if (s.tn + s.hh - s.tstop) * s.hh > 0 then { s with hh := s.tstop - s.tn } else s

/-- IDAStopTest1: the stop tests made before taking a step. -/
def IDAStopTest1 (s : IDAState) (tout : ℚ) (itask : ITask) : StopRes :=
  match itask with
  | ITask.normal =>
    if tout = s.tretp then
      ⟨{ s with tretp := tout }, some tout, none, StopRet.success⟩
    else if (s.tn - tout) * s.hh ≥ 0 then
      match IDAGetSolution s tout with
      | none => ⟨s, none, none, StopRet.illInput⟩
      | some yy => ⟨{ s with tretp := tout }, some tout, some yy, StopRet.success⟩
    else ⟨s, none, none, StopRet.continueSteps⟩
  | ITask.oneStep =>
    if (s.tn - s.tretp) * s.hh > 0 then
      ⟨{ s with tretp := s.tn }, some s.tn, IDAGetSolution s s.tn, StopRet.success⟩
    else ⟨s, none, none, StopRet.continueSteps⟩
  | ITask.normalTstop =>
    if (s.tn - s.tstop) * s.hh > 0 then ⟨s, none, none, StopRet.illInput⟩
    else if tout = s.tretp then
      ⟨{ s with tretp := tout }, some tout, none, StopRet.success⟩
    else if (s.tn - tout) * s.hh ≥ 0 then
      match IDAGetSolution s tout with
      | none => ⟨s, none, none, StopRet.illInput⟩
      | some yy => ⟨{ s with tretp := tout }, some tout, some yy, StopRet.success⟩
    else if abs (s.tn - s.tstop) ≤ 100 * s.uround * (abs s.tn + abs s.hh) then
      match IDAGetSolution s s.tstop with
      | none => ⟨s, none, none, StopRet.illInput⟩
      | some yy =>
        ⟨{ s with tretp := s.tstop }, some s.tstop, some yy, StopRet.tstopReturn⟩
    else ⟨tstopClip s, none, none, StopRet.continueSteps⟩
  | ITask.oneStepTstop =>
    if (s.tn - s.tstop) * s.hh > 0 then ⟨s, none, none, StopRet.illInput⟩
    else if (s.tn - s.tretp) * s.hh > 0 then
      ⟨{ s with tretp := s.tn }, some s.tn, IDAGetSolution s s.tn, StopRet.success⟩
    else if abs (s.tn - s.tstop) ≤ 100 * s.uround * (abs s.tn + abs s.hh) then
      match IDAGetSolution s s.tstop with
      | none => ⟨s, none, none, StopRet.illInput⟩
      | some yy =>
        ⟨{ s with tretp := s.tstop }, some s.tstop, some yy, StopRet.tstopReturn⟩
    else ⟨tstopClip s, none, none, StopRet.continueSteps⟩

/-- IDAStopTest2: the stop tests made after taking a step (no error
check on IDAGetSolution here, mirroring the code). -/
def IDAStopTest2 (s : IDAState) (tout : ℚ) (itask : ITask) : StopRes :=
  match itask with
  | ITask.normal =>
    if (s.tn - tout) * s.hh ≥ 0 then
      ⟨{ s with tretp := tout }, some tout, IDAGetSolution s tout, StopRet.success⟩
    else ⟨s, none, none, StopRet.continueSteps⟩
  | ITask.oneStep => ⟨{ s with tretp := s.tn }, some s.tn, none, StopRet.success⟩
  | ITask.normalTstop =>
    if abs (s.tn - s.tstop) ≤ 100 * s.uround * (abs s.tn + abs s.hh) then
      ⟨{ s with tretp := s.tstop }, some s.tstop, IDAGetSolution s s.tstop,
        StopRet.tstopReturn⟩
    else if (s.tn - tout) * s.hh ≥ 0 then
      ⟨{ s with tretp := tout }, some tout, IDAGetSolution s tout, StopRet.success⟩
    else ⟨tstopClip s, none, none, StopRet.continueSteps⟩
  | ITask.oneStepTstop =>
    if abs (s.tn - s.tstop) ≤ 100 * s.uround * (abs s.tn + abs s.hh) then
      ⟨{ s with tretp := s.tstop }, some s.tstop, IDAGetSolution s s.tstop,
        StopRet.tstopReturn⟩
    else ⟨{ tstopClip s with tretp := s.tn }, some s.tn, none, StopRet.success⟩

theorem tstopClip_sound (s : IDAState) :
    ((tstopClip s).tn + (tstopClip s).hh - s.tstop) * (tstopClip s).hh ≤ 0 ∨
      ¬((s.tn + s.hh - s.tstop) * s.hh > 0) := by
  simp only [tstopClip]
  split_ifs with h
  · left
    show (s.tn + (s.tstop - s.tn) - s.tstop) * (s.tstop - s.tn) ≤ 0
    have hz : s.tn + (s.tstop - s.tn) - s.tstop = 0 := by ring
    rw [hz, zero_mul]
  · right
    exact h

theorem tstopClip_bound (s : IDAState) :
    ((tstopClip s).tn + (tstopClip s).hh - (tstopClip s).tstop) *
      (tstopClip s).hh ≤ 0 := by
  simp only [tstopClip]
  split_ifs with h
  · show (s.tn + (s.tstop - s.tn) - s.tstop) * (s.tstop - s.tn) ≤ 0
    have hz : s.tn + (s.tstop - s.tn) - s.tstop = 0 := by ring
    rw [hz, zero_mul]
  · exact le_of_not_lt h

/-- Claim C8 (amended): in the TStop task modes, whenever a stop test
returns CONTINUE_STEPS the step size has been clipped so that the next
step cannot pass t_stop ((tn + h - tstop)*h is nonpositive), and
IDASetCoeffs then advances tn to tn + h, which therefore does not pass
t_stop; after a step, IDAStopTest2 in NORMAL_TSTOP mode returns
TStopReached with the solution evaluated at t_stop whenever tn is within
the round-off fuzz of t_stop; before a step, IDAStopTest1 does the same
only when no earlier normal-return condition fires (tstop not behind,
tout not equal to the previous return, tout not yet passed) and the
interpolation at t_stop succeeds. -/
theorem C8_tstop (s : IDAState) (tout : ℚ) :
    ((IDAStopTest1 s tout ITask.normalTstop).ret = StopRet.continueSteps →
      ((IDAStopTest1 s tout ITask.normalTstop).s.tn +
        (IDAStopTest1 s tout ITask.normalTstop).s.hh -
        (IDAStopTest1 s tout ITask.normalTstop).s.tstop) *
        (IDAStopTest1 s tout ITask.normalTstop).s.hh ≤ 0) ∧
    ((IDAStopTest1 s tout ITask.oneStepTstop).ret = StopRet.continueSteps →
      ((IDAStopTest1 s tout ITask.oneStepTstop).s.tn +
        (IDAStopTest1 s tout ITask.oneStepTstop).s.hh -
        (IDAStopTest1 s tout ITask.oneStepTstop).s.tstop) *
        (IDAStopTest1 s tout ITask.oneStepTstop).s.hh ≤ 0) ∧
    ((IDAStopTest2 s tout ITask.normalTstop).ret = StopRet.continueSteps →
      ((IDAStopTest2 s tout ITask.normalTstop).s.tn +
        (IDAStopTest2 s tout ITask.normalTstop).s.hh -
        (IDAStopTest2 s tout ITask.normalTstop).s.tstop) *
        (IDAStopTest2 s tout ITask.normalTstop).s.hh ≤ 0) ∧
    ((s.tn + s.hh - s.tstop) * s.hh ≤ 0 →
      ((IDASetCoeffs s).1.tn - s.tstop) * s.hh ≤ 0) ∧
    (abs (s.tn - s.tstop) ≤ 100 * s.uround * (abs s.tn + abs s.hh) →
      (IDAStopTest2 s tout ITask.normalTstop).ret = StopRet.tstopReturn ∧
      (IDAStopTest2 s tout ITask.normalTstop).tret = some s.tstop ∧
      (IDAStopTest2 s tout ITask.normalTstop).sol = IDAGetSolution s s.tstop) ∧
    (¬((s.tn - s.tstop) * s.hh > 0) → tout ≠ s.tretp →
      ¬((s.tn - tout) * s.hh ≥ 0) →
      abs (s.tn - s.tstop) ≤ 100 * s.uround * (abs s.tn + abs s.hh) →
      ∀ yy, IDAGetSolution s s.tstop = some yy →
        (IDAStopTest1 s tout ITask.normalTstop).ret = StopRet.tstopReturn) := by
  refine ⟨?_, ?_, ?_, ?_, ?_, ?_⟩
  · intro hret
    simp only [IDAStopTest1] at hret ⊢
    split_ifs at hret ⊢ with h1 h2 h3 h4
    · cases hgs : IDAGetSolution s tout with
      | none =>
        rw [hgs] at hret
        exact absurd hret (by simp)
      | some yy =>
        rw [hgs] at hret
        exact absurd hret (by simp)
    · cases hgs : IDAGetSolution s s.tstop with
      | none =>
        rw [hgs] at hret
        exact absurd hret (by simp)
      | some yy =>
        rw [hgs] at hret
        exact absurd hret (by simp)
    · exact tstopClip_bound s
  · intro hret
    simp only [IDAStopTest1] at hret ⊢
    split_ifs at hret ⊢ with h1 h2 h3
    · cases hgs : IDAGetSolution s s.tstop with
      | none =>
        rw [hgs] at hret
        exact absurd hret (by simp)
      | some yy =>
        rw [hgs] at hret
        exact absurd hret (by simp)
    · exact tstopClip_bound s
  · intro hret
    simp only [IDAStopTest2] at hret ⊢
    split_ifs at hret ⊢ with h1 h2
    · exact tstopClip_bound s
  · intro hle
    rw [setCoeffs_tn]
    exact hle
  · intro hfz
    simp only [IDAStopTest2, if_pos hfz]
    exact ⟨trivial, trivial, trivial⟩
  · intro h1 h2 h3 hfz yy hgs
    simp only [IDAStopTest1, if_neg h1, if_neg h2, if_neg h3, if_pos hfz, hgs]

/-- A state sitting exactly on t_stop = 1 with a pending tout before
it. -/
def sEx8 : IDAState :=
  { base with tn := 1, tstop := 1, hh := 1/10, hused := 1/10, kused := 1,
              uround := 1/1000000, tretp := 0,
              psi := fun _ => 1, phi := fun _ => [1] }

theorem C8_tstop_witness :
    abs (sEx8.tn - sEx8.tstop) ≤ 100 * sEx8.uround * (abs sEx8.tn + abs sEx8.hh) ∧
    (IDAStopTest2 sEx8 2 ITask.normalTstop).ret = StopRet.tstopReturn ∧
    (IDAStopTest2 sEx8 2 ITask.normalTstop).tret = some sEx8.tstop := by
  have hfz : abs (sEx8.tn - sEx8.tstop) ≤
      100 * sEx8.uround * (abs sEx8.tn + abs sEx8.hh) := by
    norm_num [sEx8, base, abs_of_nonneg]
  have h := (C8_tstop sEx8 2).2.2.2.2.1 hfz
  exact ⟨hfz, h.1, h.2.1⟩

/-- Claim C8 as stated is false for IDAStopTest1: with tn within the
round-off fuzz of t_stop but tout already passed, the call returns the
normal tout return, not TStopReached. -/
theorem C8_tstop_counterexample :
    abs (sEx8.tn - sEx8.tstop) ≤ 100 * sEx8.uround * (abs sEx8.tn + abs sEx8.hh) ∧
    (IDAStopTest1 sEx8 (19/20) ITask.normalTstop).ret = StopRet.success := by
  constructor
  · norm_num [sEx8, base, abs_of_nonneg]
  · simp only [IDAStopTest1]
    rw [if_neg (show ¬((sEx8.tn - sEx8.tstop) * sEx8.hh > 0) from by
          norm_num [sEx8, base]),
        if_neg (show ¬((19 : ℚ)/20 = sEx8.tretp) from by norm_num [sEx8, base]),
        if_pos (show (sEx8.tn - (19 : ℚ)/20) * sEx8.hh ≥ 0 from by
          norm_num [sEx8, base])]
    have hgs : IDAGetSolution sEx8 (19/20) ≠ none := by
      simp only [IDAGetSolution]
      split_ifs with h h2
      · exfalso
        norm_num [sEx8, base] at h
      · simp
      · simp
    cases hgs2 : IDAGetSolution sEx8 (19/20) with
    | none => exact absurd hgs2 hgs
    | some yy => rfl

/-! ## IDASensRes1DQ (idas.c:4849-5055)

The user residual is an oracle taking the current parameter array (the
perturbations act through it); libm sqrt and the vector norm are also
oracles.  Each branch returns the final state (parameter array and
residual counters), the return flag, and the computed resvalS. -/

/-- The CENTERED1 branch. -/
def sensDQ_C1 (s : IDAState) (t : ℚ) (yy yp : Vec) (yyS ypS : Vec)
    (which : ℕ) (psave Dely Delp : ℚ)
    (res : ℚ → Vec → Vec → (ℕ → ℚ) → ℤ × Vec) : IDAState × ℤ × Vec :=
  let Del := min Dely Delp
  let r2Del := (1/2) / Del
  let s1 := { s with p := upd s.p which (psave + Del) }
  let r1 := res t (vlinsum Del yyS 1 yy) (vlinsum Del ypS 1 yp) s1.p
  let s1 := { s1 with nre := s1.nre + 1, nreS := s1.nreS + 1 }
  if r1.1 ≠ 0 then (s1, r1.1, r1.2)
  else
    let s2 := { s1 with p := upd s1.p which (psave - Del) }
    let r2 := res t (vlinsum (-Del) yyS 1 yy) (vlinsum (-Del) ypS 1 yp) s2.p
    let s2 := { s2 with nre := s2.nre + 1, nreS := s2.nreS + 1 }
    if r2.1 ≠ 0 then (s2, r2.1, r2.2)
    else
      ({ s2 with p := upd s2.p which psave }, 0, vlinsum r2Del r1.2 (-r2Del) r2.2)

/-- The CENTERED2 branch. -/
def sensDQ_C2 (s : IDAState) (t : ℚ) (yy yp : Vec) (yyS ypS : Vec)
    (which : ℕ) (skipFP : Bool) (psave Dely Delp : ℚ)
    (res : ℚ → Vec → Vec → (ℕ → ℚ) → ℤ × Vec) : IDAState × ℤ × Vec :=
  let r2Delp := (1/2) / Delp
  let r2Dely := (1/2) / Dely
  let r1 := res t (vlinsum Dely yyS 1 yy) (vlinsum Dely ypS 1 yp) s.p
  let s1 := { s with nre := s.nre + 1, nreS := s.nreS + 1 }
  if r1.1 ≠ 0 then (s1, r1.1, r1.2)
  else
    let r2 := res t (vlinsum (-Dely) yyS 1 yy) (vlinsum (-Dely) ypS 1 yp) s1.p
    let s2 := { s1 with nre := s1.nre + 1, nreS := s1.nreS + 1 }
    if r2.1 ≠ 0 then (s2, r2.1, r2.2)
    else
      let acc := vlinsum r2Dely r1.2 (-r2Dely) r2.2
      if skipFP then (s2, 0, acc)
      else
        let s3 := { s2 with p := upd s2.p which (psave + Delp) }
        let r3 := res t yy yp s3.p
        let s3 := { s3 with nre := s3.nre + 1, nreS := s3.nreS + 1 }
        if r3.1 ≠ 0 then (s3, r3.1, r3.2)
        else
          let s4 := { s3 with p := upd s3.p which (psave - Delp) }
          let r4 := res t yy yp s4.p
          let s4 := { s4 with nre := s4.nre + 1, nreS := s4.nreS + 1 }
          if r4.1 ≠ 0 then (s4, r4.1, r4.2)
          else
            let rtmp := vlinsum r2Delp r3.2 (-r2Delp) r4.2
            ({ s4 with p := upd s4.p which psave }, 0, vlinsum 1 acc 1 rtmp)

/-- The FORWARD1 branch. -/
def sensDQ_F1 (s : IDAState) (t : ℚ) (yy yp resval : Vec) (yyS ypS : Vec)
    (which : ℕ) (psave Dely Delp : ℚ)
    (res : ℚ → Vec → Vec → (ℕ → ℚ) → ℤ × Vec) : IDAState × ℤ × Vec :=
  let Del := min Dely Delp
  let rDel := 1 / Del
  let s1 := { s with p := upd s.p which (psave + Del) }
  let r1 := res t (vlinsum Del yyS 1 yy) (vlinsum Del ypS 1 yp) s1.p
  let s1 := { s1 with nre := s1.nre + 1, nreS := s1.nreS + 1 }
  if r1.1 ≠ 0 then (s1, r1.1, r1.2)
  else
    ({ s1 with p := upd s1.p which psave }, 0, vlinsum rDel r1.2 (-rDel) resval)

/-- The FORWARD2 branch. -/
def sensDQ_F2 (s : IDAState) (t : ℚ) (yy yp resval : Vec) (yyS ypS : Vec)
    (which : ℕ) (skipFP : Bool) (psave Dely Delp : ℚ)
    (res : ℚ → Vec → Vec → (ℕ → ℚ) → ℤ × Vec) : IDAState × ℤ × Vec :=
  let rDelp := 1 / Delp
  let rDely := 1 / Dely
  let r1 := res t (vlinsum Dely yyS 1 yy) (vlinsum Dely ypS 1 yp) s.p
  let s1 := { s with nre := s.nre + 1, nreS := s.nreS + 1 }
  if r1.1 ≠ 0 then (s1, r1.1, r1.2)
  else
    let acc := vlinsum rDely r1.2 (-rDely) resval
    if skipFP then (s1, 0, acc)
    else
      let s2 := { s1 with p := upd s1.p which (psave + Delp) }
      let r3 := res t yy yp s2.p
      let s2 := { s2 with nre := s2.nre + 1, nreS := s2.nreS + 1 }
      if r3.1 ≠ 0 then (s2, r3.1, r3.2)
      else
        let rtmp := vlinsum rDelp r3.2 (-rDelp) resval
        ({ s2 with p := upd s2.p which psave }, 0, vlinsum 1 acc 1 rtmp)

/-- IDASensRes1DQ: computes the residual of the is-th sensitivity
equation by finite differences, selecting the method by the rho
criterion. -/
def IDASensRes1DQ (s : IDAState) (t : ℚ) (yy yp resval : Vec) (is : ℕ)
    (yyS ypS : Vec)
    (res : ℚ → Vec → Vec → (ℕ → ℚ) → ℤ × Vec)
    (rsqrt : ℚ → ℚ) (wnrm : Vec → Vec → ℚ) : IDAState × ℤ × Vec :=
  let del := rsqrt (max s.reltol s.uround)
  let rdel := 1 / del
  let which := match s.plist with
    | some pl => Int.natAbs (pl is) - 1
    | none => is
  let skipFP : Bool := match s.plist with
    | some pl => decide (pl is < 0)
    | none => false
  let psave := s.p which
  let pbari := abs (s.pbar which)
  let Delp := pbari * del
  let rDelp := 1 / Delp
  let norms := wnrm yyS s.ewt * pbari
  let rDely := max norms rdel / pbari
  let Dely := 1 / rDely
  let rho := Dely * rDelp
  if (max (1 / rho) rho ≤ abs s.rhomax) ∨ s.rhomax = 0 then
    (if s.rhomax ≥ 0 then sensDQ_C1 s t yy yp yyS ypS which psave Dely Delp res
     else sensDQ_F1 s t yy yp resval yyS ypS which psave Dely Delp res)
  else
    (if s.rhomax > 0 then sensDQ_C2 s t yy yp yyS ypS which skipFP psave Dely Delp res
     else sensDQ_F2 s t yy yp resval yyS ypS which skipFP psave Dely Delp res)

theorem upd_upd_restore (p : ℕ → ℚ) (w : ℕ) (x : ℚ) :
    upd (upd p w x) w (p w) = p := by
  funext j
  by_cases hj : j = w
  · subst hj
    rw [upd_same]
  · rw [upd_other _ _ _ _ hj, upd_other _ _ _ _ hj]

theorem upd_upd_upd_restore (p : ℕ → ℚ) (w : ℕ) (x y : ℚ) :
    upd (upd (upd p w x) w y) w (p w) = p := by
  funext j
  by_cases hj : j = w
  · subst hj
    rw [upd_same]
  · rw [upd_other _ _ _ _ hj, upd_other _ _ _ _ hj, upd_other _ _ _ _ hj]

theorem sensDQ_C1_spec (s : IDAState) (t : ℚ) (yy yp : Vec) (yyS ypS : Vec)
    (which : ℕ) (psave Dely Delp : ℚ)
    (res : ℚ → Vec → Vec → (ℕ → ℚ) → ℤ × Vec)
    (hps : psave = s.p which) :
    ((sensDQ_C1 s t yy yp yyS ypS which psave Dely Delp res).2.1 = 0 →
      (sensDQ_C1 s t yy yp yyS ypS which psave Dely Delp res).1.p = s.p) ∧
    ((sensDQ_C1 s t yy yp yyS ypS which psave Dely Delp res).1 =
      { s with p := (sensDQ_C1 s t yy yp yyS ypS which psave Dely Delp res).1.p,
               nre := (sensDQ_C1 s t yy yp yyS ypS which psave Dely Delp res).1.nre,
               nreS := (sensDQ_C1 s t yy yp yyS ypS which psave Dely Delp res).1.nreS }) := by
  subst hps
  simp only [sensDQ_C1]
  split_ifs with h1 h2
  · exact ⟨fun h => absurd h h1, rfl⟩
  · exact ⟨fun h => absurd h h2, rfl⟩
  · exact ⟨fun _ => upd_upd_upd_restore s.p which _ _, rfl⟩

theorem sensDQ_C2_spec (s : IDAState) (t : ℚ) (yy yp : Vec) (yyS ypS : Vec)
    (which : ℕ) (skipFP : Bool) (psave Dely Delp : ℚ)
    (res : ℚ → Vec → Vec → (ℕ → ℚ) → ℤ × Vec)
    (hps : psave = s.p which) :
    ((sensDQ_C2 s t yy yp yyS ypS which skipFP psave Dely Delp res).2.1 = 0 →
      (sensDQ_C2 s t yy yp yyS ypS which skipFP psave Dely Delp res).1.p = s.p) ∧
    ((sensDQ_C2 s t yy yp yyS ypS which skipFP psave Dely Delp res).1 =
      { s with p := (sensDQ_C2 s t yy yp yyS ypS which skipFP psave Dely Delp res).1.p,
               nre := (sensDQ_C2 s t yy yp yyS ypS which skipFP psave Dely Delp res).1.nre,
               nreS := (sensDQ_C2 s t yy yp yyS ypS which skipFP psave Dely Delp res).1.nreS }) := by
  subst hps
  simp only [sensDQ_C2]
  split_ifs with h1 h2 h3 h4 h5
  · exact ⟨fun h => absurd h h1, rfl⟩
  · exact ⟨fun h => absurd h h2, rfl⟩
  · exact ⟨fun _ => rfl, rfl⟩
  · exact ⟨fun h => absurd h h4, rfl⟩
  · exact ⟨fun h => absurd h h5, rfl⟩
  · exact ⟨fun _ => upd_upd_upd_restore s.p which _ _, rfl⟩

theorem sensDQ_F1_spec (s : IDAState) (t : ℚ) (yy yp resval : Vec) (yyS ypS : Vec)
    (which : ℕ) (psave Dely Delp : ℚ)
    (res : ℚ → Vec → Vec → (ℕ → ℚ) → ℤ × Vec)
    (hps : psave = s.p which) :
    ((sensDQ_F1 s t yy yp resval yyS ypS which psave Dely Delp res).2.1 = 0 →
      (sensDQ_F1 s t yy yp resval yyS ypS which psave Dely Delp res).1.p = s.p) ∧
    ((sensDQ_F1 s t yy yp resval yyS ypS which psave Dely Delp res).1 =
      { s with p := (sensDQ_F1 s t yy yp resval yyS ypS which psave Dely Delp res).1.p,
               nre := (sensDQ_F1 s t yy yp resval yyS ypS which psave Dely Delp res).1.nre,
               nreS := (sensDQ_F1 s t yy yp resval yyS ypS which psave Dely Delp res).1.nreS }) := by
  subst hps
  simp only [sensDQ_F1]
  split_ifs with h1
  · exact ⟨fun h => absurd h h1, rfl⟩
  · exact ⟨fun _ => upd_upd_restore s.p which _, rfl⟩

theorem sensDQ_F2_spec (s : IDAState) (t : ℚ) (yy yp resval : Vec) (yyS ypS : Vec)
    (which : ℕ) (skipFP : Bool) (psave Dely Delp : ℚ)
    (res : ℚ → Vec → Vec → (ℕ → ℚ) → ℤ × Vec)
    (hps : psave = s.p which) :
    ((sensDQ_F2 s t yy yp resval yyS ypS which skipFP psave Dely Delp res).2.1 = 0 →
      (sensDQ_F2 s t yy yp resval yyS ypS which skipFP psave Dely Delp res).1.p = s.p) ∧
    ((sensDQ_F2 s t yy yp resval yyS ypS which skipFP psave Dely Delp res).1 =
      { s with p := (sensDQ_F2 s t yy yp resval yyS ypS which skipFP psave Dely Delp res).1.p,
               nre := (sensDQ_F2 s t yy yp resval yyS ypS which skipFP psave Dely Delp res).1.nre,
               nreS := (sensDQ_F2 s t yy yp resval yyS ypS which skipFP psave Dely Delp res).1.nreS }) := by
  subst hps
  simp only [sensDQ_F2]
  split_ifs with h1 h2 h3
  · exact ⟨fun h => absurd h h1, rfl⟩
  · exact ⟨fun _ => rfl, rfl⟩
  · exact ⟨fun h => absurd h h3, rfl⟩
  · exact ⟨fun _ => upd_upd_restore s.p which _, rfl⟩

/-- Claim C9 (amended): on every exit of IDASensRes1DQ that returns 0
the perturbed parameter is restored (p is unchanged as a whole), and on
every exit path only the parameter array and the evaluation counters
nre, nreS can differ from the input state.  On early returns caused by a
nonzero residual flag after a parameter perturbation, p stays perturbed
(see the counterexample). -/
theorem C9_param_restore (s : IDAState) (t : ℚ) (yy yp resval : Vec) (is : ℕ)
    (yyS ypS : Vec) (res : ℚ → Vec → Vec → (ℕ → ℚ) → ℤ × Vec)
    (rsqrt : ℚ → ℚ) (wnrm : Vec → Vec → ℚ) :
    ((IDASensRes1DQ s t yy yp resval is yyS ypS res rsqrt wnrm).2.1 = 0 →
      (IDASensRes1DQ s t yy yp resval is yyS ypS res rsqrt wnrm).1.p = s.p) ∧
    ((IDASensRes1DQ s t yy yp resval is yyS ypS res rsqrt wnrm).1 =
      { s with
        p := (IDASensRes1DQ s t yy yp resval is yyS ypS res rsqrt wnrm).1.p
        nre := (IDASensRes1DQ s t yy yp resval is yyS ypS res rsqrt wnrm).1.nre
        nreS := (IDASensRes1DQ s t yy yp resval is yyS ypS res rsqrt wnrm).1.nreS }) := by
  simp only [IDASensRes1DQ]
  split_ifs with h1 h2 h3
  · exact sensDQ_C1_spec s t yy yp yyS ypS _ _ _ _ res rfl
  · exact sensDQ_F1_spec s t yy yp resval yyS ypS _ _ _ _ res rfl
  · exact sensDQ_C2_spec s t yy yp yyS ypS _ _ _ _ _ res rfl
  · exact sensDQ_F2_spec s t yy yp resval yyS ypS _ _ _ _ _ res rfl

def rsqrtEx9 : ℚ → ℚ := fun _ => 1/2

def wnrmEx9 : Vec → Vec → ℚ := fun _ _ => 1

def resEx9 : ℚ → Vec → Vec → (ℕ → ℚ) → ℤ × Vec := fun _ _ _ _ => (1, [])

def resEx9ok : ℚ → Vec → Vec → (ℕ → ℚ) → ℤ × Vec := fun _ _ _ _ => (0, [])

def sEx9 : IDAState :=
  { base with reltol := 1/4, uround := 1/1000000,
              p := fun _ => 3, pbar := fun _ => 1, ewt := [1] }

theorem C9_param_witness :
    (IDASensRes1DQ sEx9 0 [] [] [] 0 [] [] resEx9ok rsqrtEx9 wnrmEx9).2.1 = 0 ∧
    (IDASensRes1DQ sEx9 0 [] [] [] 0 [] [] resEx9ok rsqrtEx9 wnrmEx9).1.p = sEx9.p := by
  have h0 : (IDASensRes1DQ sEx9 0 [] [] [] 0 [] [] resEx9ok rsqrtEx9 wnrmEx9).2.1 = 0 := by
    norm_num [IDASensRes1DQ, sensDQ_C1, sEx9, resEx9ok, rsqrtEx9, wnrmEx9, base]
  exact ⟨h0, (C9_param_restore sEx9 0 [] [] [] 0 [] [] resEx9ok rsqrtEx9 wnrmEx9).1 h0⟩

theorem C9_param_counterexample :
    (IDASensRes1DQ sEx9 0 [] [] [] 0 [] [] resEx9 rsqrtEx9 wnrmEx9).2.1 ≠ 0 ∧
    (IDASensRes1DQ sEx9 0 [] [] [] 0 [] [] resEx9 rsqrtEx9 wnrmEx9).1.p 0 = 7/2 ∧
    sEx9.p 0 = 3 := by
  norm_num [IDASensRes1DQ, sensDQ_C1, sEx9, resEx9, rsqrtEx9, wnrmEx9, base, upd_same]

/-! ## IDAEwtSet (idas.c:2509-2549)

IDAEwtSetSS and IDAEwtSetSV build the candidate weight vector in the
scratch vector tempv1, test its minimum for positivity, and only then
invert it into ewt. -/

def IDAEwtSetSS (s : IDAState) (ycur : Vec) : IDAState × Bool :=
  let t1 := vabs ycur
  let t1 := vscale s.reltol t1
  let t1 := vaddconst t1 s.atolScalar
  if vmin t1 ≤ 0 then ({ s with tempv1 := t1 }, false)
  else ({ s with tempv1 := t1, ewt := vinv t1 }, true)

def IDAEwtSetSV (s : IDAState) (ycur : Vec) : IDAState × Bool :=
  let t1 := vabs ycur
  let t1 := vlinsum s.reltol t1 1 s.atolVec
  if vmin t1 ≤ 0 then ({ s with tempv1 := t1 }, false)
  else ({ s with tempv1 := t1, ewt := vinv t1 }, true)

/-- Claim C10: in both tolerance variants the positivity test is
performed on the scratch vector tempv1 before ewt is written, so a
FALSE return leaves the whole state unchanged except tempv1 — in
particular ewt keeps its previous value; and FALSE is returned exactly
when the minimum component of rtol*|ycur| + atol is non-positive. -/
theorem C10_ewt_error_path (s : IDAState) (ycur : Vec) :
    ((IDAEwtSetSS s ycur).2 = false →
      (IDAEwtSetSS s ycur).1 = { s with tempv1 := (IDAEwtSetSS s ycur).1.tempv1 }) ∧
    ((IDAEwtSetSV s ycur).2 = false →
      (IDAEwtSetSV s ycur).1 = { s with tempv1 := (IDAEwtSetSV s ycur).1.tempv1 }) ∧
    ((IDAEwtSetSS s ycur).2 = false ↔
      vmin (vaddconst (vscale s.reltol (vabs ycur)) s.atolScalar) ≤ 0) ∧
    ((IDAEwtSetSV s ycur).2 = false ↔
      vmin (vlinsum s.reltol (vabs ycur) 1 s.atolVec) ≤ 0) := by
  refine ⟨?_, ?_, ?_, ?_⟩ <;> simp only [IDAEwtSetSS, IDAEwtSetSV] <;>
    split_ifs with h <;> simp [h]

def sEx10 : IDAState :=
  { base with reltol := 1/2, atolScalar := 1/4, atolVec := [1/4, -2], ewt := [7] }

theorem C10_ewt_witness :
    (IDAEwtSetSV sEx10 [2, 1]).2 = false ∧
    (IDAEwtSetSV sEx10 [2, 1]).1 =
      { sEx10 with tempv1 := (IDAEwtSetSV sEx10 [2, 1]).1.tempv1 } ∧
    (IDAEwtSetSV sEx10 [2, 1]).1.ewt = [7] := by
  have hf : vmin (vlinsum sEx10.reltol (vabs [2, 1]) 1 sEx10.atolVec) ≤ 0 := by
    norm_num [sEx10, base, vlinsum, vabs, vmin]
  have h := C10_ewt_error_path sEx10 [2, 1]
  have hret := h.2.2.2.mpr hf
  have hfr := h.2.1 hret
  refine ⟨hret, hfr, ?_⟩
  rw [hfr]
  rfl

end IdasSpec
